import Mathlib

/-!
Verification of the scarf-seams gcode post-processor.

Shallow embedding of the repository's TypeScript source:
  * `src/lib/GcodeCommand.ts` (parsing / serialization of gcode lines),
  * `src/lib/util.ts` (points and vector helpers),
  * `src/lib/GcodeVm.ts` (the immutable gcode virtual machine),
  * `src/lib/processor.ts` (the loop-scarfing transform).

JavaScript `number` values are idealized as exact real numbers extended with
the three IEEE special values `Infinity`, `-Infinity` and `NaN` (type `JNum`
below); float rounding and signed zeros are not modeled.  The code uses
`Infinity` as the sentinel for an unknown coordinate, and `NaN`/`±Infinity`
propagate through arithmetic exactly as in JavaScript, so the special values
are part of the semantics and are modeled faithfully.

TypeScript exceptions (`physicalPosition` on an unknown position, `G28 0`,
the non-finite safety floor, and the `CoordinateSystemChangeError` used for
control flow in the taper transform) are modeled with an `Except PErr` monad.
-/

namespace Scarf

/-- JavaScript numbers, idealized: an exact real payload plus the IEEE special
values.  Arithmetic below follows the ECMAScript semantics of the operations
the source uses (`+ - * /`, `** 2`, `** 0.5`, `<`, `Math.min`, `Math.max`,
`Math.ceil`, `Number.isFinite`). -/
inductive JNum : Type where
  | num (x : ℝ)
  | inf
  | ninf
  | nan

namespace JNum

/-- JavaScript addition. -/
noncomputable def add : JNum → JNum → JNum
  | num a, num b => num (a + b)
  | num _, inf => inf
  | num _, ninf => ninf
  | inf, num _ => inf
  | ninf, num _ => ninf
  | inf, inf => inf
  | ninf, ninf => ninf
  | _, _ => nan

/-- JavaScript unary minus. -/
noncomputable def neg : JNum → JNum
  | num a => num (-a)
  | inf => ninf
  | ninf => inf
  | nan => nan

/-- JavaScript subtraction. -/
noncomputable def sub (a b : JNum) : JNum := add a (neg b)

/-- JavaScript multiplication. -/
noncomputable def mul : JNum → JNum → JNum
  | num a, num b => num (a * b)
  | num a, inf => if a = 0 then nan else if 0 < a then inf else ninf
  | num a, ninf => if a = 0 then nan else if 0 < a then ninf else inf
  | inf, num b => if b = 0 then nan else if 0 < b then inf else ninf
  | ninf, num b => if b = 0 then nan else if 0 < b then ninf else inf
  | inf, inf => inf
  | inf, ninf => ninf
  | ninf, inf => ninf
  | ninf, ninf => inf
  | _, _ => nan

/-- JavaScript division (signed zeros not modeled: division by `0` of a
nonzero number gives the infinity of the numerator's sign). -/
noncomputable def div : JNum → JNum → JNum
  | num a, num b =>
      if b = 0 then (if a = 0 then nan else if 0 < a then inf else ninf)
      else num (a / b)
  | num _, inf => num 0
  | num _, ninf => num 0
  | inf, num b => if 0 ≤ b then inf else ninf
  | ninf, num b => if 0 ≤ b then ninf else inf
  | _, _ => nan

/-- JavaScript strict `<` as a boolean: any comparison with `NaN` is false. -/
noncomputable def ltb : JNum → JNum → Bool
  | num a, num b => decide (a < b)
  | num _, inf => true
  | ninf, num _ => true
  | ninf, inf => true
  | _, _ => false

/-- JavaScript `Math.min`: `NaN` contaminates. -/
noncomputable def minJ : JNum → JNum → JNum
  | nan, _ => nan
  | _, nan => nan
  | num a, num b => num (min a b)
  | num _, ninf => ninf
  | ninf, num _ => ninf
  | ninf, ninf => ninf
  | ninf, inf => ninf
  | inf, ninf => ninf
  | num a, inf => num a
  | inf, num b => num b
  | inf, inf => inf

/-- JavaScript `Math.max`: `NaN` contaminates. -/
noncomputable def maxJ : JNum → JNum → JNum
  | nan, _ => nan
  | _, nan => nan
  | num a, num b => num (max a b)
  | num _, inf => inf
  | inf, num _ => inf
  | inf, inf => inf
  | inf, ninf => inf
  | ninf, inf => inf
  | num a, ninf => num a
  | ninf, num b => num b
  | ninf, ninf => ninf

/-- JavaScript `x ** 0.5` / `Math.sqrt`. -/
noncomputable def sqrt : JNum → JNum
  | num a => if a < 0 then nan else num (Real.sqrt a)
  | inf => inf
  | _ => nan

/-- JavaScript `Number.isFinite`. -/
def isFinite : JNum → Bool
  | num _ => true
  | _ => false

/-- Embedding of a natural number. -/
noncomputable def ofNat (n : ℕ) : JNum := num n

/-- The number of iterations of `for (let i = 0; i < stepCount; i++)` when
`stepCount` is `Math.ceil` of this value.  A `NaN` or negative bound runs the
loop zero times (comparisons with `NaN` are false), matching JavaScript.  An
infinite bound would not terminate in JavaScript; the embedding returns 0
there, and every theorem about the subdivision assumes a finite length and a
positive resolution, which keeps the bound finite. -/
noncomputable def toStepCount : JNum → ℕ
  | num x => (Int.ceil x).toNat
  | _ => 0

end JNum

/-- Points from `util.ts`: three JavaScript numbers.  A coordinate of
`Infinity` is the sentinel for "unknown". -/
structure Point where
  x : JNum
  y : JNum
  z : JNum

/-- Vectors of length 3 from `util.ts`. -/
def Vec3 : Type := JNum × JNum × JNum

namespace Point

/-- Point.unknown from `util.ts`. -/
def unknown : Point := ⟨JNum.inf, JNum.inf, JNum.inf⟩

/-- Point.zero from `util.ts`. -/
def zero : Point := ⟨JNum.num 0, JNum.num 0, JNum.num 0⟩

/-- Point.prototype.distanceTo from `util.ts`:
`((dx ** 2 + dy ** 2 + dz ** 2)) ** 0.5`. -/
noncomputable def distanceTo (p q : Point) : JNum :=
  JNum.sqrt
    (JNum.add
      (JNum.add (JNum.mul (JNum.sub p.x q.x) (JNum.sub p.x q.x))
        (JNum.mul (JNum.sub p.y q.y) (JNum.sub p.y q.y)))
      (JNum.mul (JNum.sub p.z q.z) (JNum.sub p.z q.z)))

/-- Point.prototype.subtract from `util.ts`. -/
noncomputable def subtract (p q : Point) : Vec3 :=
  (JNum.sub p.x q.x, JNum.sub p.y q.y, JNum.sub p.z q.z)

/-- Point.prototype.addVector from `util.ts`. -/
noncomputable def addVector (p : Point) (v : Vec3) : Point :=
  ⟨JNum.add p.x v.1, JNum.add p.y v.2.1, JNum.add p.z v.2.2⟩

/-- Point.prototype.toVector from `util.ts`. -/
def toVector (p : Point) : Vec3 := (p.x, p.y, p.z)

/-- Point.prototype.isFinite from `util.ts`. -/
def isFinite (p : Point) : Bool :=
  p.x.isFinite && p.y.isFinite && p.z.isFinite

end Point

/-- norm from `util.ts`: `vec.reduce((sum, v) => sum + v ** 2, 0) ** 0.5`. -/
noncomputable def norm (v : Vec3) : JNum :=
  JNum.sqrt
    (JNum.add
      (JNum.add (JNum.add (JNum.num 0) (JNum.mul v.1 v.1))
        (JNum.mul v.2.1 v.2.1))
      (JNum.mul v.2.2 v.2.2))

/-- vMul from `util.ts`. -/
noncomputable def vMul (v : Vec3) (s : JNum) : Vec3 :=
  (JNum.mul v.1 s, JNum.mul v.2.1 s, JNum.mul v.2.2 s)

/-- normalize from `util.ts`: `vMul(vec, 1 / norm(vec))`. -/
noncomputable def normalize (v : Vec3) : Vec3 :=
  vMul v (JNum.div (JNum.num 1) (norm v))

/-! ## The command model (`GcodeCommand.ts`) -/

/-- The closed set of recognized instruction codes (`codes` /
`simpleCommandCodes` in `GcodeCommand.ts`). -/
inductive Code : Type where
  | G0 | G1 | G2 | G3 | G28 | G90 | G91 | G92 | G92_1 | M82 | M83
deriving DecidableEq

/-- The string of a code, as written on a gcode line. -/
def Code.str : Code → String
  | G0 => "G0"
  | G1 => "G1"
  | G2 => "G2"
  | G3 => "G3"
  | G28 => "G28"
  | G90 => "G90"
  | G91 => "G91"
  | G92 => "G92"
  | G92_1 => "G92.1"
  | M82 => "M82"
  | M83 => "M83"

/-- Membership of a token in `simpleCommandCodes`. -/
def codeOfToken (s : String) : Option Code :=
  if s == "G0" then some .G0
  else if s == "G1" then some .G1
  else if s == "G2" then some .G2
  else if s == "G3" then some .G3
  else if s == "G28" then some .G28
  else if s == "G90" then some .G90
  else if s == "G91" then some .G91
  else if s == "G92" then some .G92
  else if s == "G92.1" then some .G92_1
  else if s == "M82" then some .M82
  else if s == "M83" then some .M83
  else none

/-- Result of JavaScript `Number(string)`: an exact rational, an infinity, or
`NaN`.  Computable so that parse results of concrete lines can be decided. -/
inductive QNum : Type where
  | fin (q : ℚ)
  | pinf
  | ninf
  | nanq
deriving DecidableEq

/-- Injection of a parse-level number into the runtime number domain. -/
noncomputable def QNum.toJNum : QNum → JNum
  | fin q => .num (q : ℝ)
  | pinf => .inf
  | ninf => .ninf
  | nanq => .nan

/-- Argument records of a recognized command (`Record<string, number>` in the
source).  JavaScript objects keep the first insertion position of a key and
overwrite its value, which `set` mirrors. -/
def Args : Type := List (String × JNum)

/-- JavaScript property test `key in args`. -/
def Args.containsKey (a : Args) (k : String) : Bool :=
  a.any (fun p => p.1 == k)

/-- JavaScript property read `args[key]` (none when the key is absent). -/
def Args.get? (a : Args) (k : String) : Option JNum :=
  (a.find? (fun p => p.1 == k)).map (fun p => p.2)

/-- JavaScript `args[key] ?? dflt`. -/
def Args.getD (a : Args) (k : String) (dflt : JNum) : JNum :=
  (a.get? k).getD dflt

/-- JavaScript property write `args[key] = v` (also what an object spread
`{...args, key: v}` does for one key). -/
def Args.set : Args → String → JNum → Args
  | [], k, v => [(k, v)]
  | (k0, v0) :: rest, k, v =>
      if k0 == k then (k0, v) :: rest else (k0, v0) :: Args.set rest k v

/-- Cast of a parse-level argument record into the runtime one. -/
noncomputable def Args.cast (a : List (String × QNum)) : Args :=
  a.map (fun p => (p.1, p.2.toJNum))

/-- SimpleCommand from `GcodeCommand.ts`.  The optional trailing comment is a
string; parsing stores `""` when the line has none, and serialization emits
the `;` marker only for a non-empty comment, which matches the JavaScript
truthiness test on it. -/
structure SimpleCommand : Type where
  command : Code
  args : Args
  comment : String

/-- GcodeCommand from `GcodeCommand.ts`: a recognized instruction, a comment
line, or an opaque passthrough line. -/
inductive GcodeCommand : Type where
  | simple (c : SimpleCommand)
  | comment (s : String)
  | unknown (content : String)

/-- Modelled from the spec: `isMoveCommand` is imported by `processor.ts` and
`GcodeVm.ts` from `GcodeCommand.ts`, whose copy in the repository predates it;
§4.2 ("Motion (two codes, rapid/linear)") and `moveCodes = ['G0', 'G1']` of
`codes.ts` fix it as recognizing exactly the two motion codes. -/
def isMoveCommand : GcodeCommand → Bool
  | .simple c => c.command = Code.G0 || c.command = Code.G1
  | _ => false

/-! ### Parsing (`parseCommand` and its helpers)

The pure string manipulation is kept computable (over `QNum`), so parse
results of concrete lines can be settled by `decide`; `parseCommand` itself
injects the parsed rationals into `JNum`. -/

/-- Digits of a decimal numeral, most significant first. -/
def digitsToNat (cs : List Char) : ℕ :=
  cs.foldl (fun n c => 10 * n + (c.toNat - 48)) 0

/-- JavaScript `Number(string)` on the decimal grammar the source feeds it
(optional sign, digits with an optional fraction and exponent, `Infinity`,
the empty string meaning 0, anything else `NaN`).  The hex/octal/binary
literal forms of full ECMAScript are not modeled; they would come out `NaN`
here, and gcode argument text never uses them. -/
def jsNumberUnsigned (cs : List Char) : QNum :=
  if cs = ("Infinity").toList then .pinf
  else
    let intDs := cs.takeWhile Char.isDigit
    let rest1 := cs.dropWhile Char.isDigit
    let hasDot := match rest1 with
      | '.' :: _ => true
      | _ => false
    let fracDs := if hasDot then (rest1.drop 1).takeWhile Char.isDigit else []
    let rest2 := if hasDot then (rest1.drop 1).dropWhile Char.isDigit else rest1
    if intDs = [] ∧ fracDs = [] then .nanq
    else
      let mantissa : ℚ :=
        (digitsToNat intDs : ℚ) + (digitsToNat fracDs : ℚ) / (10 : ℚ) ^ fracDs.length
      match rest2 with
      | [] => .fin mantissa
      | e :: r =>
          if e = 'e' ∨ e = 'E' then
            let eneg := match r with
              | '-' :: _ => true
              | _ => false
            let r2 := match r with
              | '+' :: rr => rr
              | '-' :: rr => rr
              | _ => r
            let expDs := r2.takeWhile Char.isDigit
            let r3 := r2.dropWhile Char.isDigit
            if expDs = [] ∨ r3 ≠ [] then .nanq
            else
              let ex : ℤ := if eneg then -(digitsToNat expDs : ℤ) else (digitsToNat expDs : ℤ)
              .fin (mantissa * (10 : ℚ) ^ ex)
          else .nanq

/-- Sign handling of JavaScript `Number(string)` (whitespace already
trimmed). -/
def jsNumberSigned (cs : List Char) : QNum :=
  match cs with
  | '+' :: rest => jsNumberUnsigned rest
  | '-' :: rest =>
      match jsNumberUnsigned rest with
      | .fin q => .fin (-q)
      | .pinf => .ninf
      | .ninf => .pinf
      | .nanq => .nanq
  | _ => jsNumberUnsigned cs

/-- JavaScript `string.split(sep)` for a one-character separator (the forms
`split(';')`, `split('\n')` the source uses), at the character level. -/
def jsCharSplitGo (sep : Char) : List Char → List Char → List String
  | [], cur => [String.mk cur.reverse]
  | c :: rest, cur =>
      if c = sep then String.mk cur.reverse :: jsCharSplitGo sep rest []
      else jsCharSplitGo sep rest (c :: cur)

/-- JavaScript `string.split(sep)` for a one-character separator. -/
def jsCharSplit (sep : Char) (s : String) : List String :=
  jsCharSplitGo sep s.toList []

/-- The whitespace trim JavaScript `Number(string)` applies. -/
def jsTrim (s : String) : List Char :=
  ((s.toList.dropWhile Char.isWhitespace).reverse.dropWhile
    Char.isWhitespace).reverse

/-- JavaScript `Number(string)`. -/
def jsNumberQ (s : String) : QNum :=
  let t := jsTrim s
  if t = [] then .fin 0 else jsNumberSigned t

/-- JavaScript `string.split(/\s+/)`: maximal whitespace runs separate the
chunks, with an empty chunk at an end that touches whitespace.  The first
argument is structural fuel; the character count of the line is ample, since
every step consumes at least one character. -/
def jsSplitWsGo : ℕ → List Char → List Char → List String
  | 0, _, cur => [String.mk cur.reverse]
  | _ + 1, [], cur => [String.mk cur.reverse]
  | fuel + 1, c :: rest, cur =>
      if c.isWhitespace then
        String.mk cur.reverse ::
          jsSplitWsGo fuel (rest.dropWhile Char.isWhitespace) []
      else jsSplitWsGo fuel rest (c :: cur)

/-- JavaScript `string.split(/\s+/)`. -/
def jsSplitWs (s : String) : List String :=
  jsSplitWsGo s.toList.length s.toList []

/-- A word character of the JavaScript regex `\b` boundary: `[A-Za-z0-9_]`. -/
def isWordChar (c : Char) : Bool := c.isAlpha || c.isDigit || c == '_'

/-- Whether the position between `prev` and `next` (none at the end of the
string) is a `\b` word boundary. -/
def boundaryOk (prev : Char) (next : Option Char) : Bool :=
  match next with
  | none => isWordChar prev
  | some n => isWordChar prev != isWordChar n

/-- The regex backtracking of `[0-9.]+\b`: the longest nonempty prefix length
of `run` whose end is a word boundary (`after` is the rest of the line beyond
the maximal run). -/
def tokenEndSearch (run after : List Char) : ℕ → Option ℕ
  | 0 => none
  | l + 1 =>
      match run.get? l with
      | none => tokenEndSearch run after l
      | some p =>
          if boundaryOk p (run.drop (l + 1) ++ after).head? then some (l + 1)
          else tokenEndSearch run after l

/-- tryGetSimpleCommandCodeFromLine from `GcodeCommand.ts`: match
`/^\s*([A-Z][0-9.]+)\b/` against the line, then test the captured token's
membership in `simpleCommandCodes`. -/
def tryGetSimpleCommandCodeFromLine (line : String) : Option Code :=
  let cs := line.toList.dropWhile Char.isWhitespace
  match cs with
  | [] => none
  | c :: rest =>
      if c.isUpper then
        let run := rest.takeWhile (fun d => d.isDigit || d == '.')
        let after := rest.drop run.length
        match tokenEndSearch run after run.length with
        | none => none
        | some len => codeOfToken (String.mk (c :: run.take len))
      else none

/-- JavaScript property write on the parse-level argument record. -/
def setArg {α : Type} : List (String × α) → String → α → List (String × α)
  | [], k, v => [(k, v)]
  | (k0, v0) :: rest, k, v =>
      if k0 == k then (k0, v) :: rest else (k0, v0) :: setArg rest k v

/-- The argument-collection loop of `parseCommand`: each token contributes
`token[0]` as key (the key of an empty token is the string a JavaScript
undefined index turns into) and `Number(token.slice(1))` as value; the last
occurrence of a key wins. -/
def parseArgsQ (parts : List String) : List (String × QNum) :=
  parts.foldl
    (fun acc arg =>
      match arg.toList with
      | [] => setArg acc ("undefined") (jsNumberQ (""))
      | k :: rest => setArg acc (String.mk [k]) (jsNumberQ (String.mk rest)))
    []

/-- The recognized-command branch of `parseCommand`, at the computable parse
level: the code, the argument record, and the attached comment. -/
def parseCommandQ (line : String) : Option (Code × List (String × QNum) × String) :=
  match tryGetSimpleCommandCodeFromLine line with
  | none => none
  | some code =>
      let pieces := jsCharSplit (';') line
      let beforeComment := pieces.headD ("")
      let commentParts := pieces.tail
      let commandParts := jsSplitWs beforeComment
      let argsQ := parseArgsQ commandParts.tail
      let argsQ2 :=
        if code = Code.G92_1 then
          setArg (setArg (setArg argsQ ("X") (.fin 0)) ("Y") (.fin 0)) ("Z") (.fin 0)
        else argsQ
      some (code, argsQ2, String.intercalate (";") commentParts)

/-- parseCommand from `GcodeCommand.ts`. -/
noncomputable def parseCommand (line : String) : GcodeCommand :=
  match line.toList with
  | ';' :: rest => .comment (String.mk rest)
  | _ =>
      match parseCommandQ line with
      | some (code, argsQ, com) => .simple ⟨code, Args.cast argsQ, com⟩
      | none => .unknown line

/-! ### Serialization (`stringifyCommand`) -/

/-- Decimal digits of a natural number (fuel-based; `n` itself is ample
fuel). -/
def natDigitsGo : ℕ → ℕ → List Char → List Char
  | 0, _, acc => acc
  | fuel + 1, n, acc =>
      if n = 0 then acc else natDigitsGo fuel (n / 10) (Nat.digitChar (n % 10) :: acc)

/-- Decimal numeral of a natural number. -/
def natDigits (n : ℕ) : List Char :=
  if n = 0 then ['0'] else natDigitsGo n n []

/-- Exactly `p` decimal digits of `fp < 10 ^ p`, most significant first (the
zero-padded fraction block of `toFixed`). -/
def fracDigits (fp p : ℕ) : List Char :=
  (List.range p).map (fun i => Nat.digitChar (fp / 10 ^ (p - 1 - i) % 10))

/-- JavaScript `value.toFixed(p)`: round `value * 10^p` to the nearest
integer (ties away from zero toward plus infinity, per the ECMAScript "pick
the larger n"), then print with exactly `p` digits after the point, or no
point at all when `p = 0`.  Signed zero is not modeled. -/
noncomputable def jsToFixed (x : JNum) (p : ℕ) : String :=
  match x with
  | .nan => "NaN"
  | .inf => "Infinity"
  | .ninf => "-Infinity"
  | .num v =>
      let m : ℤ := Int.floor (v * (10 : ℝ) ^ p + 1 / 2)
      let a := m.natAbs
      (if m < 0 then "-" else "") ++ String.mk (natDigits (a / 10 ^ p)) ++
        (if p = 0 then "" else "." ++ String.mk (fracDigits (a % 10 ^ p) p))

/-- The per-key precision switch of `stringifySimpleCommand`: 3 decimal
places for X, Y and Z, 5 for E, 0 for any other key. -/
def argPrecision (k : String) : ℕ :=
  if k == "X" ∨ k == "Y" ∨ k == "Z" then 3
  else if k == "E" then 5
  else 0

/-- stringifySimpleCommand from `GcodeCommand.ts`. -/
noncomputable def stringifySimpleCommand (c : SimpleCommand) : String :=
  let argStrings := c.args.map (fun p => p.1 ++ jsToFixed p.2 (argPrecision p.1))
  c.command.str ++ " " ++ String.intercalate (" ") argStrings ++
    (if c.comment == "" then "" else ";" ++ c.comment)

/-- stringifyCommand from `GcodeCommand.ts`. -/
noncomputable def stringifyCommand : GcodeCommand → String
  | .comment c => ";" ++ c
  | .simple c => stringifySimpleCommand c
  | .unknown c => c

/-! ## The virtual machine (`GcodeVm.ts`) -/

/-- MoveMode from `util.ts`. -/
inductive MoveMode : Type where
  | absolute
  | relative
deriving DecidableEq

/-- The exceptions the source can throw: querying `physicalPosition` with the
logical position unknown, `G28 0`, the non-finite safety floor, and the
`CoordinateSystemChangeError` of the taper transform. -/
inductive PErr : Type where
  | unknownPosition
  | trustedAxisHome
  | nonFiniteFloor
  | coordinateSystemChange
deriving DecidableEq

/-- GcodeVm from `GcodeVm.ts`: the immutable machine state. -/
structure GcodeVm : Type where
  positionMode : MoveMode
  extrusionMode : MoveMode
  logicalPosition : Point
  extrusion : JNum
  feedRate : JNum
  didExtrudeOnLastMove : Bool
  physicalOffset : Point
  physicalEOffset : JNum

namespace GcodeVm

/-- The state `new GcodeVm()` builds: power-on defaults. -/
def init : GcodeVm :=
  { positionMode := .absolute
    extrusionMode := .relative
    logicalPosition := Point.unknown
    extrusion := .num 0
    feedRate := .num 0
    didExtrudeOnLastMove := false
    physicalOffset := Point.zero
    physicalEOffset := .num 0 }

/-- get logicalPositionKnown from `GcodeVm.ts`. -/
def logicalPositionKnown (vm : GcodeVm) : Bool :=
  vm.logicalPosition.isFinite

/-- get physicalPosition from `GcodeVm.ts`: throws when the logical position
is unknown. -/
noncomputable def physicalPosition (vm : GcodeVm) : Except PErr Point :=
  if vm.logicalPositionKnown then
    .ok (vm.logicalPosition.addVector vm.physicalOffset.toVector)
  else .error .unknownPosition

/-- get physicalExtrusion from `GcodeVm.ts`. -/
noncomputable def physicalExtrusion (vm : GcodeVm) : JNum :=
  JNum.add vm.extrusion vm.physicalEOffset

/-- executeSetExtrusionModeCommand from `GcodeVm.ts`. -/
def executeSetExtrusionModeCommand (vm : GcodeVm) (c : SimpleCommand) : GcodeVm :=
  match c.command with
  | .M82 => { vm with extrusionMode := .absolute }
  | .M83 => { vm with extrusionMode := .relative }
  | _ => vm

/-- executeSetPositionCommand from `GcodeVm.ts` (G92 / G92.1): for each axis
present in the arguments, `offset_new = offset_old - (declared - logical_old)`
and `logical_new = declared`; analogously for an `E` argument. -/
noncomputable def executeSetPositionCommand (vm : GcodeVm) (c : SimpleCommand) : GcodeVm :=
  let a := c.args
  let lp := vm.logicalPosition
  let po := vm.physicalOffset
  let xs := match a.get? ("X") with
    | some d => (d, JNum.sub po.x (JNum.sub d lp.x))
    | none => (lp.x, po.x)
  let ys := match a.get? ("Y") with
    | some d => (d, JNum.sub po.y (JNum.sub d lp.y))
    | none => (lp.y, po.y)
  let zs := match a.get? ("Z") with
    | some d => (d, JNum.sub po.z (JNum.sub d lp.z))
    | none => (lp.z, po.z)
  let es := match a.get? ("E") with
    | some d => (d, JNum.sub vm.physicalEOffset (JNum.sub d vm.extrusion))
    | none => (vm.extrusion, vm.physicalEOffset)
  { vm with
    logicalPosition := ⟨xs.1, ys.1, zs.1⟩
    physicalOffset := ⟨xs.2, ys.2, zs.2⟩
    extrusion := es.1
    physicalEOffset := es.2 }

/-- executeSetPositionModeCommand from `GcodeVm.ts` (G90 / G91). -/
def executeSetPositionModeCommand (vm : GcodeVm) (c : SimpleCommand) : GcodeVm :=
  match c.command with
  | .G90 => { vm with positionMode := .absolute }
  | .G91 => { vm with positionMode := .relative }
  | _ => vm

/-- executeHomeCommand from `GcodeVm.ts` (G28): `G28 0` is a fatal condition;
axis arguments home (zero) just those axes, no axis arguments home all
three. -/
def executeHomeCommand (vm : GcodeVm) (c : SimpleCommand) : Except PErr GcodeVm :=
  let a := c.args
  if a.containsKey ("0") then .error .trustedAxisHome
  else
    let hx := a.containsKey ("X")
    let hy := a.containsKey ("Y")
    let hz := a.containsKey ("Z")
    if hx || hy || hz then
      .ok { vm with
        physicalOffset :=
          ⟨if hx then .num 0 else vm.physicalOffset.x,
           if hy then .num 0 else vm.physicalOffset.y,
           if hz then .num 0 else vm.physicalOffset.z⟩
        logicalPosition :=
          ⟨if hx then .num 0 else vm.logicalPosition.x,
           if hy then .num 0 else vm.logicalPosition.y,
           if hz then .num 0 else vm.logicalPosition.z⟩ }
    else
      .ok { vm with physicalOffset := Point.zero, logicalPosition := Point.zero }

/-- executeArcCommand from `GcodeVm.ts` (G2 / G3): arcs are not emulated; the
logical X and Y become unknown, Z is untouched. -/
def executeArcCommand (vm : GcodeVm) : GcodeVm :=
  { vm with logicalPosition := ⟨.inf, .inf, vm.logicalPosition.z⟩ }

/-- executeMoveCommand from `GcodeVm.ts` (G0 / G1). -/
noncomputable def executeMoveCommand (vm : GcodeVm) (c : SimpleCommand) : GcodeVm :=
  let a := c.args
  let lp := vm.logicalPosition
  let lp2 := match vm.positionMode with
    | .absolute => Point.mk (a.getD ("X") lp.x) (a.getD ("Y") lp.y) (a.getD ("Z") lp.z)
    | .relative =>
        lp.addVector (a.getD ("X") (.num 0), a.getD ("Y") (.num 0), a.getD ("Z") (.num 0))
  let e2 := match vm.extrusionMode with
    | .absolute => a.getD ("E") vm.extrusion
    | .relative => JNum.add vm.extrusion (a.getD ("E") (.num 0))
  { vm with logicalPosition := lp2, extrusion := e2 }

/-- \_rawExecuteSimpleCommand from `GcodeVm.ts`: the dispatch on the
recognized code. -/
noncomputable def rawExecuteSimpleCommand (vm : GcodeVm) (c : SimpleCommand) :
    Except PErr GcodeVm :=
  match c.command with
  | .G0 => .ok (vm.executeMoveCommand c)
  | .G1 => .ok (vm.executeMoveCommand c)
  | .G2 => .ok vm.executeArcCommand
  | .G3 => .ok vm.executeArcCommand
  | .G28 => vm.executeHomeCommand c
  | .G90 => .ok (vm.executeSetPositionModeCommand c)
  | .G91 => .ok (vm.executeSetPositionModeCommand c)
  | .G92 => .ok (vm.executeSetPositionCommand c)
  | .G92_1 => .ok (vm.executeSetPositionCommand c)
  | .M82 => .ok (vm.executeSetExtrusionModeCommand c)
  | .M83 => .ok (vm.executeSetExtrusionModeCommand c)

/-- executeSimpleCommand from `GcodeVm.ts`: the raw dispatch, then the
`didExtrudeOnLastMove` flag is recomputed after a motion command. -/
noncomputable def executeSimpleCommand (vm : GcodeVm) (c : SimpleCommand) :
    Except PErr GcodeVm := do
  let clone ← vm.rawExecuteSimpleCommand c
  if isMoveCommand (.simple c) then
    .ok { clone with didExtrudeOnLastMove := JNum.ltb vm.extrusion clone.extrusion }
  else .ok clone

/-- executeCommand from `GcodeVm.ts`: comments and passthrough lines are
no-ops on the state. -/
noncomputable def executeCommand (vm : GcodeVm) : GcodeCommand → Except PErr GcodeVm
  | .simple c => vm.executeSimpleCommand c
  | .comment _ => .ok vm
  | .unknown _ => .ok vm

/-- executeLine from `GcodeVm.ts`. -/
noncomputable def executeLine (vm : GcodeVm) (l : String) : Except PErr GcodeVm :=
  vm.executeCommand (parseCommand l)

/-- convertPhysicalPositionToLogical from `GcodeVm.ts`:
`physicalPosition.addVector(vMul(physicalOffset.toVector(), -1))`. -/
noncomputable def convertPhysicalPositionToLogical (vm : GcodeVm) (p : Point) : Point :=
  p.addVector (vMul vm.physicalOffset.toVector (JNum.num (-1)))

end GcodeVm

/-! ## The transform (`processor.ts`)

The `Processor` methods are embedded as functions; the mutable
`inputStack` is threaded as a list plus a count of consumed commands, and the
`CoordinateSystemChangeError` control flow lives in the `Except` monad. -/

/-- ProcessorParameters from `processor.ts` (`seamGap` is accepted and never
consumed, as in the source). -/
structure ProcessorParameters : Type where
  gcode : String
  layerHeight : JNum
  overlap : JNum
  loopTolerance : JNum
  taperResolution : JNum
  seamGap : JNum

/-- MAX_OVERLAP_LOOP_FRACTION from `processor.ts`. -/
noncomputable def MAX_OVERLAP_LOOP_FRACTION : JNum := .num (1 / 3)

/-- A move command's payload, when the command is one (the `isMoveCommand`
guards of the source, packaged to also expose the `MoveCommand` fields). -/
def asMove : GcodeCommand → Option SimpleCommand
  | .simple sc =>
      if sc.command = Code.G0 ∨ sc.command = Code.G1 then some sc else none
  | _ => none

/-- The `for (const command of sequence) vm = vm.executeCommand(command)`
loops of the source. -/
noncomputable def execAll (vm : GcodeVm) : List GcodeCommand → Except PErr GcodeVm
  | [] => .ok vm
  | c :: rest => do
      let vm2 ← vm.executeCommand c
      execAll vm2 rest

/-- Processor.isExtrusionStart. -/
noncomputable def isExtrusionStart (vm : GcodeVm) (c : GcodeCommand) : Except PErr Bool := do
  let nextVm ← vm.executeCommand c
  .ok (JNum.ltb vm.extrusion nextVm.extrusion)

/-- The consuming loop of Processor.consumeWhileExtruding: commands join the
run while the speculative state keeps reporting `didExtrudeOnLastMove`; the
first command that does not is left on the stack.  Returns the run and how
many commands of the stack it consumed (the remaining input is `drop` of that
count). -/
noncomputable def consumeWhileExtrudingGo (svm : GcodeVm) :
    List GcodeCommand → Except PErr (List GcodeCommand × ℕ)
  | [] => .ok ([], 0)
  | c :: rest => do
      let svm2 ← svm.executeCommand c
      if svm2.didExtrudeOnLastMove then
        let r ← consumeWhileExtrudingGo svm2 rest
        .ok (c :: r.1, r.2 + 1)
      else .ok ([], 0)

/-- Processor.consumeWhileExtruding. -/
noncomputable def consumeWhileExtruding (vm : GcodeVm) (first : GcodeCommand)
    (stack : List GcodeCommand) : Except PErr (List GcodeCommand × ℕ) := do
  let svm ← vm.executeCommand first
  let r ← consumeWhileExtrudingGo svm stack
  .ok (first :: r.1, r.2)

/-- Processor.isLoop: never a loop when the logical position is unknown;
otherwise run the sequence and compare the end-to-start physical distance
with the loop tolerance. -/
noncomputable def isLoop (P : ProcessorParameters) (vm : GcodeVm)
    (sequence : List GcodeCommand) : Except PErr Bool :=
  if !vm.logicalPositionKnown then .ok false
  else do
    let startPoint ← vm.physicalPosition
    let vmEnd ← execAll vm sequence
    let endPoint ← vmEnd.physicalPosition
    .ok (JNum.ltb (endPoint.distanceTo startPoint) P.loopTolerance)

/-- The accumulation loop of Processor.calculateSequenceLength. -/
noncomputable def calculateSequenceLengthGo (vm : GcodeVm) (prevPoint : Point)
    (total : JNum) : List GcodeCommand → Except PErr JNum
  | [] => .ok total
  | c :: rest => do
      let vm2 ← vm.executeCommand c
      let nextPoint ← vm2.physicalPosition
      calculateSequenceLengthGo vm2 nextPoint
        (JNum.add total (prevPoint.distanceTo nextPoint)) rest

/-- Processor.calculateSequenceLength. -/
noncomputable def calculateSequenceLength (vm : GcodeVm)
    (sequence : List GcodeCommand) : Except PErr JNum := do
  let p0 ← vm.physicalPosition
  calculateSequenceLengthGo vm p0 (.num 0) sequence

/-- The coordinate-system-change switch of Processor.makeEndingTaper: the
codes that raise `CoordinateSystemChangeError` there are `setPosition` (G92),
`relative` (G91) and `home` (G28). -/
def isCoordinateChangeCode : GcodeCommand → Bool
  | .simple sc =>
      sc.command = Code.G92 || sc.command = Code.G91 || sc.command = Code.G28
  | _ => false

/-- The walk of Processor.splitTaperSection: accumulate physical arc length
until the effective overlap is crossed, split the crossing move into a
synthetic in-taper move and an extrusion-adjusted remainder, and pass
everything after the crossing through to the non-taper section.  The source
does not advance the machine state on a non-move while still tapering, which
is mirrored here. -/
noncomputable def splitTaperSectionGo (overlap : JNum) (vm : GcodeVm)
    (prevPoint : Point) (accumDistance : JNum) (isTapering : Bool) :
    List GcodeCommand → Except PErr (List GcodeCommand × List GcodeCommand)
  | [] => .ok ([], [])
  | c :: rest => do
      let nextVm ← vm.executeCommand c
      if isTapering then
        match asMove c with
        | none => do
            let r ← splitTaperSectionGo overlap vm prevPoint accumDistance true rest
            .ok (c :: r.1, r.2)
        | some sc => do
            let nextPoint ← nextVm.physicalPosition
            let segmentLength := prevPoint.distanceTo nextPoint
            if JNum.ltb (JNum.add accumDistance segmentLength) overlap then do
              let r ← splitTaperSectionGo overlap nextVm nextPoint
                (JNum.add accumDistance segmentLength) true rest
              .ok (c :: r.1, r.2)
            else do
              let splitDistance := JNum.sub overlap accumDistance
              let vDirection := normalize (nextPoint.subtract prevPoint)
              let splitPoint := prevPoint.addVector (vMul vDirection splitDistance)
              let totalExtrusion := JNum.sub nextVm.extrusion vm.extrusion
              let extrusionRatio := JNum.div splitDistance segmentLength
              let splitExtrusion := JNum.mul totalExtrusion extrusionRatio
              let adjustedEndExtrusion := JNum.sub totalExtrusion splitExtrusion
              let splitLogicalPosition := vm.convertPhysicalPositionToLogical splitPoint
              let splitPointMove : GcodeCommand := .simple
                { command := sc.command
                  args := Args.set (Args.set (Args.set (Args.set sc.args
                    ("X") splitLogicalPosition.x) ("Y") splitLogicalPosition.y)
                    ("Z") splitLogicalPosition.z) ("E") splitExtrusion
                  comment := "" }
              let adjustedEndPoint : GcodeCommand := .simple
                { sc with args := Args.set sc.args ("E") adjustedEndExtrusion }
              let r ← splitTaperSectionGo overlap nextVm nextPoint accumDistance false rest
              .ok (splitPointMove :: r.1, adjustedEndPoint :: r.2)
      else do
        let r ← splitTaperSectionGo overlap nextVm prevPoint accumDistance false rest
        .ok (r.1, c :: r.2)

/-- Processor.splitTaperSection. -/
noncomputable def splitTaperSection (vm : GcodeVm) (sequence : List GcodeCommand)
    (overlap : JNum) : Except PErr (List GcodeCommand × List GcodeCommand) := do
  let prevPoint ← vm.physicalPosition
  splitTaperSectionGo overlap vm prevPoint (.num 0) true sequence

/-- Processor.divideMove: subdivide one move into `Math.ceil(distance /
resolution)` sub-moves of equal length, the extrusion divided equally, each
sub-move targeting `start + i * stepVector`, bracketed by marker comments. -/
noncomputable def divideMove (vm : GcodeVm) (sc : SimpleCommand) (resolution : JNum) :
    Except PErr (List GcodeCommand) := do
  let nextVm ← vm.executeCommand (.simple sc)
  let startPoint ← vm.physicalPosition
  let endPoint ← nextVm.physicalPosition
  let distance := startPoint.distanceTo endPoint
  let stepCount := (JNum.div distance resolution).toStepCount
  let actualResolution := JNum.div distance (JNum.ofNat stepCount)
  let stepVector := vMul (normalize (endPoint.subtract startPoint)) actualResolution
  let stepExtrusion := JNum.div (JNum.sub nextVm.extrusion vm.extrusion)
    (JNum.ofNat stepCount)
  let steps := (List.range stepCount).map (fun i =>
    let stepPoint := startPoint.addVector (vMul stepVector (JNum.ofNat i))
    let logicalPosition := vm.convertPhysicalPositionToLogical stepPoint
    GcodeCommand.simple
      { command := sc.command
        args := Args.set (Args.set (Args.set (Args.set sc.args
          ("X") logicalPosition.x) ("Y") logicalPosition.y)
          ("Z") logicalPosition.z) ("E") stepExtrusion
        comment := sc.comment })
  .ok ([.comment ("Beginning of divided move")] ++ steps ++
    [.comment ("End of divided move")])

/-- Processor.divideSequence: moves are subdivided, non-move commands stay
where they are. -/
noncomputable def divideSequence (vm : GcodeVm) (sequence : List GcodeCommand)
    (resolution : JNum) : Except PErr (List GcodeCommand) :=
  match sequence with
  | [] => .ok []
  | c :: rest => do
      let nextVm ← vm.executeCommand c
      match asMove c with
      | none => do
          let r ← divideSequence nextVm rest resolution
          .ok (c :: r)
      | some sc => do
          let dividedMoves ← divideMove vm sc resolution
          let r ← divideSequence nextVm rest resolution
          .ok (dividedMoves ++ r)

/-- The replay loop of Processor.makeStartingTaper: each move's extrusion is
scaled by `t = accumulated distance / overlap` and its vertical coordinate is
lowered by `(1 - t) * layerHeight`, clamped to `minSafeZ`; non-move commands
are kept in place. -/
noncomputable def makeStartingTaperGo (layerHeight minSafeZ overlap : JNum)
    (vm : GcodeVm) (startPoint : Point) (accumDistance : JNum) :
    List GcodeCommand → Except PErr (List GcodeCommand)
  | [] => .ok []
  | c :: rest => do
      let nextVm ← vm.executeCommand c
      match asMove c with
      | none => do
          let r ← makeStartingTaperGo layerHeight minSafeZ overlap nextVm
            startPoint accumDistance rest
          .ok (c :: r)
      | some sc => do
          let nextPoint ← nextVm.physicalPosition
          let accum2 := JNum.add accumDistance (startPoint.distanceTo nextPoint)
          let t := JNum.div accum2 overlap
          let extrusion := JNum.mul t (JNum.sub nextVm.extrusion vm.extrusion)
          let zOffset := JNum.mul (JNum.sub (.num 1) t) layerHeight
          let newZ := JNum.maxJ (JNum.sub nextPoint.z zOffset) minSafeZ
          let newPoint := Point.mk nextPoint.x nextPoint.y newZ
          let logicalPosition := vm.convertPhysicalPositionToLogical newPoint
          let newCommand := GcodeCommand.simple
            { sc with args := Args.set (Args.set sc.args
                ("Z") logicalPosition.z) ("E") extrusion }
          let r ← makeStartingTaperGo layerHeight minSafeZ overlap nextVm
            nextPoint accum2 rest
          .ok (newCommand :: r)

/-- Processor.makeStartingTaper. -/
noncomputable def makeStartingTaper (layerHeight minSafeZ : JNum) (vm : GcodeVm)
    (taperSection : List GcodeCommand) (overlap : JNum) :
    Except PErr (List GcodeCommand) := do
  let startPoint ← vm.physicalPosition
  makeStartingTaperGo layerHeight minSafeZ overlap vm startPoint (.num 0) taperSection

/-- The replay loop of Processor.makeEndingTaper: extrusion ramps down by
`1 - t`, the coordinates replay the established positions, non-moves are
skipped, and `setPosition` (G92), `relative` (G91) or `home` (G28) raises the
coordinate-system-change condition. -/
noncomputable def makeEndingTaperGo (overlap : JNum) (vm : GcodeVm)
    (startPoint : Point) (accumDistance : JNum) :
    List GcodeCommand → Except PErr (List GcodeCommand)
  | [] => .ok []
  | c :: rest => do
      let nextVm ← vm.executeCommand c
      match asMove c with
      | none =>
          if isCoordinateChangeCode c then .error .coordinateSystemChange
          else makeEndingTaperGo overlap nextVm startPoint accumDistance rest
      | some sc => do
          let nextPoint ← nextVm.physicalPosition
          let accum2 := JNum.add accumDistance (startPoint.distanceTo nextPoint)
          let t := JNum.div accum2 overlap
          let extrusion := JNum.mul (JNum.sub (.num 1) t)
            (JNum.sub nextVm.extrusion vm.extrusion)
          let logicalPosition := vm.convertPhysicalPositionToLogical nextPoint
          let newCommand := GcodeCommand.simple
            { sc with args := Args.set (Args.set (Args.set (Args.set sc.args
                ("X") logicalPosition.x) ("Y") logicalPosition.y)
                ("Z") logicalPosition.z) ("E") extrusion }
          let r ← makeEndingTaperGo overlap nextVm nextPoint accum2 rest
          .ok (newCommand :: r)

/-- Processor.makeEndingTaper. -/
noncomputable def makeEndingTaper (vm : GcodeVm) (taperSection : List GcodeCommand)
    (overlap : JNum) : Except PErr (List GcodeCommand) := do
  let startPoint ← vm.physicalPosition
  makeEndingTaperGo overlap vm startPoint (.num 0) taperSection

/-- Processor.createOverlappedSequence: split, resample, starting taper,
replay, ending taper, all bracketed by the loop marker comments. -/
noncomputable def createOverlappedSequence (P : ProcessorParameters) (minSafeZ : JNum)
    (vm : GcodeVm) (originalExtrusionSequence : List GcodeCommand) (overlap : JNum) :
    Except PErr (List GcodeCommand) := do
  let sections ← splitTaperSection vm originalExtrusionSequence overlap
  let taperSection := sections.1
  let nonTaperSection := sections.2
  let dividedTaperSection ← divideSequence vm taperSection P.taperResolution
  let startingTaper ← makeStartingTaper P.layerHeight minSafeZ vm
    dividedTaperSection overlap
  let vm2 ← execAll vm (startingTaper ++ nonTaperSection)
  let endingTaper ← makeEndingTaper vm2 dividedTaperSection overlap
  .ok ([.comment ("Beginning of tapered loop")] ++ startingTaper ++
    nonTaperSection ++ endingTaper ++ [.comment ("End of tapered loop")])

/-- Processor.nextExtrusionSequence: consume the run; a non-loop or a
too-short loop passes through unchanged; a coordinate-system change inside
the taper is caught and downgraded to passing the run through; any other
error propagates. -/
noncomputable def nextExtrusionSequence (P : ProcessorParameters) (minSafeZ : JNum)
    (vm : GcodeVm) (first : GcodeCommand) (stack : List GcodeCommand) :
    Except PErr (List GcodeCommand × ℕ) := do
  let r ← consumeWhileExtruding vm first stack
  let originalExtrusionSequence := r.1
  let isl ← isLoop P vm originalExtrusionSequence
  if !isl then .ok (originalExtrusionSequence, r.2)
  else do
    let totalLength ← calculateSequenceLength vm originalExtrusionSequence
    if JNum.ltb totalLength P.taperResolution then .ok (originalExtrusionSequence, r.2)
    else
      let overlap := JNum.minJ P.overlap (JNum.mul MAX_OVERLAP_LOOP_FRACTION totalLength)
      match createOverlappedSequence P minSafeZ vm originalExtrusionSequence overlap with
      | .ok seq => .ok (seq, r.2)
      | .error .coordinateSystemChange => .ok (originalExtrusionSequence, r.2)
      | .error e => .error e

/-- The dry-run loop of Processor.findMinimumSafeZ: fold the minimum physical
Z over the states whose logical position is known, then fail unless the
result is finite. -/
noncomputable def findMinimumSafeZGo (vm : GcodeVm) (acc : JNum) :
    List String → Except PErr JNum
  | [] => if acc.isFinite then .ok acc else .error .nonFiniteFloor
  | l :: ls => do
      let vm2 ← vm.executeLine l
      if vm2.logicalPositionKnown then do
        let p ← vm2.physicalPosition
        findMinimumSafeZGo vm2 (JNum.minJ acc p.z) ls
      else findMinimumSafeZGo vm2 acc ls

/-- Processor.findMinimumSafeZ: the floor starts at 0 and is only ever
lowered. -/
noncomputable def findMinimumSafeZ (lines : List String) : Except PErr JNum :=
  findMinimumSafeZGo GcodeVm.init (.num 0) lines

/-- The main loop of Processor.process: extrusion runs are dispatched to
`nextExtrusionSequence`, executed and emitted; everything else is executed
and emitted unchanged. -/
noncomputable def processGo (P : ProcessorParameters) (minSafeZ : JNum) :
    GcodeVm → List GcodeCommand → Except PErr (List String)
  | _, [] => .ok []
  | vm, c :: rest => do
      let st ← isExtrusionStart vm c
      if st then do
        let r ← nextExtrusionSequence P minSafeZ vm c rest
        let vm2 ← execAll vm r.1
        let out ← processGo P minSafeZ vm2 (rest.drop r.2)
        .ok (r.1.map stringifyCommand ++ out)
      else do
        let vm2 ← vm.executeCommand c
        let out ← processGo P minSafeZ vm2 rest
        .ok (stringifyCommand c :: out)
  termination_by _ cs => cs.length
  decreasing_by
    · simp only [List.length_drop, List.length_cons]
      omega
    · simp

/-- Processor.process / the exported `process` function: compute the safety
floor (failing first when it is not finite), then transform the parsed lines
and join the output. -/
noncomputable def process (P : ProcessorParameters) : Except PErr String := do
  let lines := jsCharSplit ('\n') P.gcode
  let minSafeZ ← findMinimumSafeZ lines
  let out ← processGo P minSafeZ GcodeVm.init (lines.map parseCommand)
  .ok (String.intercalate ("\n") out)

/-! ## Auxiliary notions the theorems quantify over -/

/-- The commands whose execution can move the physical offset (G92, G92.1 and
G28); every other command leaves `physicalOffset` untouched. -/
def changesOffset : GcodeCommand → Bool
  | .simple sc =>
      sc.command = Code.G92 || sc.command = Code.G92_1 || sc.command = Code.G28
  | _ => false

/-- The machine states after each line of a forward dry run over the
program. -/
noncomputable def dryRunStates (vm : GcodeVm) : List String → Except PErr (List GcodeVm)
  | [] => .ok []
  | l :: ls => do
      let vm2 ← vm.executeLine l
      let r ← dryRunStates vm2 ls
      .ok (vm2 :: r)

/-- The physical Z of a dry-run state that the claimed floor counts: the
logical position must be known, and (in this variant, following the claim's
words) the state must be in absolute positioning mode. -/
noncomputable def countedZWithMode (s : GcodeVm) : Option JNum :=
  if s.logicalPositionKnown && decide (s.positionMode = MoveMode.absolute) then
    match s.physicalPosition with
    | .ok p => some p.z
    | .error _ => none
  else none

/-- The physical Z of a dry-run state counted without the positioning-mode
restriction: only the logical position must be known. -/
noncomputable def countedZKnownOnly (s : GcodeVm) : Option JNum :=
  if s.logicalPositionKnown then
    match s.physicalPosition with
    | .ok p => some p.z
    | .error _ => none
  else none

/-- Modelled from the spec: the safety floor as the claim (and §4.5) words
it — one forward dry run, the floor starting at 0 and only ever lowered by
the physical Z of states whose logical position is known AND whose frame is
in absolute positioning mode, failing when the result is not finite. -/
noncomputable def specFloorWithMode (lines : List String) : Except PErr JNum := do
  let sts ← dryRunStates GcodeVm.init lines
  let floor := (sts.filterMap countedZWithMode).foldl JNum.minJ (.num 0)
  if floor.isFinite then .ok floor else .error .nonFiniteFloor

/-- Modelled from the spec: the same floor without the positioning-mode
conjunct — the minimum, starting at 0, of the physical Z over all dry-run
states with known logical position. -/
noncomputable def specFloorKnownOnly (lines : List String) : Except PErr JNum := do
  let sts ← dryRunStates GcodeVm.init lines
  let floor := (sts.filterMap countedZKnownOnly).foldl JNum.minJ (.num 0)
  if floor.isFinite then .ok floor else .error .nonFiniteFloor

/-- The number of decimal places a rendered numeral carries: the length of
what follows the decimal point, 0 when there is none. -/
def decimalPlaces (s : String) : ℕ :=
  match jsCharSplit ('.') s with
  | [] => 0
  | [_] => 0
  | parts => (parts.getLastD ("")).length

/-- The divider marker comments `divideMove` brackets its output with. -/
def isDivideMarker : GcodeCommand → Bool
  | .comment s => s == "Beginning of divided move" || s == "End of divided move"
  | _ => false

/-- The physical point a synthesized move command targets: its X, Y and Z
arguments (when finite) plus the (finite) physical offset they were converted
through. -/
def physTarget (off : Point) (sc : SimpleCommand) : Option (ℝ × ℝ × ℝ) :=
  match sc.args.get? ("X"), sc.args.get? ("Y"), sc.args.get? ("Z"), off with
  | some (.num x), some (.num y), some (.num z),
    ⟨.num o1, .num o2, .num o3⟩ => some (x + o1, y + o2, z + o3)
  | _, _, _, _ => none

/-! ## Supporting lemmas -/

theorem JNum.add_num (a b : ℝ) : JNum.add (.num a) (.num b) = .num (a + b) := rfl

theorem JNum.neg_num (a : ℝ) : JNum.neg (.num a) = .num (-a) := rfl

theorem JNum.sub_num (a b : ℝ) : JNum.sub (.num a) (.num b) = .num (a + -b) := rfl

theorem JNum.mul_num (a b : ℝ) : JNum.mul (.num a) (.num b) = .num (a * b) := rfl

theorem JNum.ltb_num (a b : ℝ) : JNum.ltb (.num a) (.num b) = decide (a < b) := rfl

theorem JNum.minJ_num (a b : ℝ) : JNum.minJ (.num a) (.num b) = .num (min a b) := rfl

theorem JNum.maxJ_num (a b : ℝ) : JNum.maxJ (.num a) (.num b) = .num (max a b) := rfl

theorem JNum.isFinite_iff {v : JNum} : v.isFinite = true ↔ ∃ x : ℝ, v = .num x := by
  cases v <;> simp [JNum.isFinite]

theorem JNum.isFinite_num (x : ℝ) : (JNum.num x).isFinite = true := rfl

theorem JNum.div_num_of_ne (a : ℝ) {b : ℝ} (h : b ≠ 0) :
    JNum.div (.num a) (.num b) = .num (a / b) := by
  simp [JNum.div, h]

theorem JNum.sqrt_num_of_nonneg {a : ℝ} (h : 0 ≤ a) :
    JNum.sqrt (.num a) = .num (Real.sqrt a) := by
  simp [JNum.sqrt, not_lt.mpr h]

/-- The position-reset cancellation: with a finite declared value, adding the
new logical value to the adjusted offset restores the old physical
coordinate, whatever the old logical value and offset were. -/
theorem JNum.setpos_cancel (l o : JNum) (d : ℝ) :
    JNum.add (.num d) (JNum.sub o (JNum.sub (.num d) l)) = JNum.add l o := by
  cases l <;> cases o <;>
    simp [JNum.add, JNum.sub, JNum.neg] <;> ring_nf

/-- The same cancellation for any finite declared value. -/
theorem JNum.setpos_cancel_fin (l o d : JNum) (hd : d.isFinite = true) :
    JNum.add d (JNum.sub o (JNum.sub d l)) = JNum.add l o := by
  obtain ⟨q, rfl⟩ := JNum.isFinite_iff.mp hd
  exact JNum.setpos_cancel l o q

theorem Args.get?_set_self (a : Args) (k : String) (v : JNum) :
    (Args.set a k v).get? k = some v := by
  induction a with
  | nil => simp [Args.set, Args.get?]
  | cons p rest ih =>
      by_cases h : p.1 = k
      · simp [Args.set, Args.get?, h]
      · simpa [Args.set, Args.get?, h] using ih

theorem Args.get?_set_of_ne (a : Args) {k k2 : String} (v : JNum) (h : k2 ≠ k) :
    (Args.set a k v).get? k2 = a.get? k2 := by
  induction a with
  | nil => simp [Args.set, Args.get?, Ne.symm h]
  | cons p rest ih =>
      obtain ⟨k0, v0⟩ := p
      by_cases hp : k0 = k
      · subst hp
        simp [Args.set, Args.get?, Ne.symm h]
      · by_cases hp2 : k0 = k2
        · subst hp2
          simp [Args.set, Args.get?, hp]
        · have h2 := ih
          simp [Args.set, Args.get?, hp, hp2] at h2 ⊢
          exact h2

/-- Breaking a known logical position into finite components. -/
theorem GcodeVm.known_components {vm : GcodeVm} (h : vm.logicalPositionKnown = true) :
    vm.logicalPosition.x.isFinite = true ∧ vm.logicalPosition.y.isFinite = true ∧
      vm.logicalPosition.z.isFinite = true := by
  have h2 := h
  simp [GcodeVm.logicalPositionKnown, Point.isFinite, Bool.and_eq_true] at h2
  exact ⟨h2.1.1, h2.1.2, h2.2⟩

/-- C4: for every machine state with fully known (finite) logical position,
a position-reset command (G92 / G92.1) declaring finite values leaves the
physical position exactly unchanged and, when an extrusion value is declared,
the physical extrusion exactly unchanged; the logical position on each
declared axis becomes exactly the declared value, with
`offset_new = offset_old - (declared - logical_old)`, and the declared
extrusion with the analogous extrusion-offset update. -/
theorem setPosition_preserves_physical_state
    (vm : GcodeVm) (sc : SimpleCommand)
    (hknown : vm.logicalPositionKnown = true)
    (hargs : ∀ k v, (k = "X" ∨ k = "Y" ∨ k = "Z" ∨ k = "E") →
      sc.args.get? k = some v → v.isFinite = true) :
    (vm.executeSetPositionCommand sc).physicalPosition = vm.physicalPosition ∧
    (vm.executeSetPositionCommand sc).physicalExtrusion = vm.physicalExtrusion ∧
    (∀ v, sc.args.get? ("X") = some v →
      (vm.executeSetPositionCommand sc).logicalPosition.x = v ∧
      (vm.executeSetPositionCommand sc).physicalOffset.x =
        JNum.sub vm.physicalOffset.x (JNum.sub v vm.logicalPosition.x)) ∧
    (∀ v, sc.args.get? ("Y") = some v →
      (vm.executeSetPositionCommand sc).logicalPosition.y = v ∧
      (vm.executeSetPositionCommand sc).physicalOffset.y =
        JNum.sub vm.physicalOffset.y (JNum.sub v vm.logicalPosition.y)) ∧
    (∀ v, sc.args.get? ("Z") = some v →
      (vm.executeSetPositionCommand sc).logicalPosition.z = v ∧
      (vm.executeSetPositionCommand sc).physicalOffset.z =
        JNum.sub vm.physicalOffset.z (JNum.sub v vm.logicalPosition.z)) ∧
    (∀ v, sc.args.get? ("E") = some v →
      (vm.executeSetPositionCommand sc).extrusion = v ∧
      (vm.executeSetPositionCommand sc).physicalEOffset =
        JNum.sub vm.physicalEOffset (JNum.sub v vm.extrusion)) := by
  obtain ⟨hfx, hfy, hfz⟩ := GcodeVm.known_components hknown
  refine ⟨?_, ?_, ?_, ?_, ?_, ?_⟩
  · -- physical position preserved
    rcases hX : sc.args.get? ("X") with _ | vX <;>
      rcases hY : sc.args.get? ("Y") with _ | vY <;>
        rcases hZ : sc.args.get? ("Z") with _ | vZ
    all_goals try have hfX := hargs _ _ (Or.inl rfl) hX
    all_goals try have hfY := hargs _ _ (Or.inr (Or.inl rfl)) hY
    all_goals try have hfZ := hargs _ _ (Or.inr (Or.inr (Or.inl rfl))) hZ
    all_goals {
      simp only [GcodeVm.executeSetPositionCommand, hX, hY, hZ]
      simp [GcodeVm.physicalPosition, GcodeVm.logicalPositionKnown,
        Point.isFinite, Point.addVector, Point.toVector,
        JNum.setpos_cancel_fin, JNum.isFinite_num, *]
    }
  · -- physical extrusion preserved
    rcases hE : sc.args.get? ("E") with _ | vE
    · simp [GcodeVm.executeSetPositionCommand, GcodeVm.physicalExtrusion, hE]
    · have hfE := hargs _ _ (Or.inr (Or.inr (Or.inr rfl))) hE
      simp only [GcodeVm.executeSetPositionCommand, hE]
      simp [GcodeVm.physicalExtrusion, JNum.setpos_cancel_fin, hfE]
  · intro v hv
    simp [GcodeVm.executeSetPositionCommand, hv]
  · intro v hv
    simp [GcodeVm.executeSetPositionCommand, hv]
  · intro v hv
    simp [GcodeVm.executeSetPositionCommand, hv]
  · intro v hv
    simp [GcodeVm.executeSetPositionCommand, hv]

/-- Witness for C4: the scenario of the `setPosition` test — a homed machine
at (10, 10, 10) receiving `G92 X11 Y5` keeps its physical position and takes
logical X 11. -/
theorem setPosition_preserves_physical_state_witness :
    (({ GcodeVm.init with logicalPosition := ⟨.num 10, .num 10, .num 10⟩ } :
        GcodeVm).executeSetPositionCommand
        ⟨.G92, [("X", .num 11), ("Y", .num 5)], ""⟩).physicalPosition =
      ({ GcodeVm.init with logicalPosition := ⟨.num 10, .num 10, .num 10⟩ } :
        GcodeVm).physicalPosition ∧
    (({ GcodeVm.init with logicalPosition := ⟨.num 10, .num 10, .num 10⟩ } :
        GcodeVm).executeSetPositionCommand
        ⟨.G92, [("X", .num 11), ("Y", .num 5)], ""⟩).logicalPosition.x =
      JNum.num 11 := by
  have h := setPosition_preserves_physical_state
    ({ GcodeVm.init with logicalPosition := ⟨.num 10, .num 10, .num 10⟩ })
    ⟨.G92, [("X", .num 11), ("Y", .num 5)], ""⟩
    (by rfl)
    (by
      intro k v hk hv
      rcases hk with rfl | rfl | rfl | rfl
      · rw [show Args.get? ([("X", JNum.num 11), ("Y", JNum.num 5)]) ("X") =
            some (JNum.num 11) from rfl] at hv
        cases hv
        rfl
      · rw [show Args.get? ([("X", JNum.num 11), ("Y", JNum.num 5)]) ("Y") =
            some (JNum.num 5) from rfl] at hv
        cases hv
        rfl
      · rw [show Args.get? ([("X", JNum.num 11), ("Y", JNum.num 5)]) ("Z") =
            none from rfl] at hv
        cases hv
      · rw [show Args.get? ([("X", JNum.num 11), ("Y", JNum.num 5)]) ("E") =
            none from rfl] at hv
        cases hv)
  refine ⟨h.1, ?_⟩
  exact (h.2.2.1 (JNum.num 11) (by rfl)).1

/-- Distance between two fully finite points. -/
theorem Point.distanceTo_num (a b c d e f : ℝ) :
    Point.distanceTo ⟨.num a, .num b, .num c⟩ ⟨.num d, .num e, .num f⟩ =
      .num (Real.sqrt (((a + -d) * (a + -d) + (b + -e) * (b + -e)) +
        (c + -f) * (c + -f))) := by
  have hnn : (0 : ℝ) ≤ ((a + -d) * (a + -d) + (b + -e) * (b + -e)) +
      (c + -f) * (c + -f) :=
    add_nonneg (add_nonneg (mul_self_nonneg _) (mul_self_nonneg _))
      (mul_self_nonneg _)
  simp [Point.distanceTo, JNum.sub_num, JNum.mul_num, JNum.add_num,
    JNum.sqrt_num_of_nonneg hnn]

theorem exceptOkBind {ε α β : Type} (a : α) (f : α → Except ε β) :
    (Except.ok a : Except ε α) >>= f = f a := rfl

theorem exceptErrorBind {ε α β : Type} (e : ε) (f : α → Except ε β) :
    (Except.error e : Except ε α) >>= f = Except.error e := rfl

/-- C6: the closure test of an extracted extrusion run.  With the logical
position unknown at the run's start, a run is never a loop; otherwise the run
is a loop exactly when the physical distance from the end point, reached by
executing the run from the captured start state, back to the start point is
strictly below the loop tolerance; and a non-loop, as well as a loop whose
total path length is shorter than the taper resolution, is returned by
`nextExtrusionSequence` as the original command run, unchanged and in
order. -/
theorem isLoop_closure_and_nonloop_passthrough :
    (∀ (P : ProcessorParameters) (vm : GcodeVm) (seq : List GcodeCommand),
      vm.logicalPositionKnown = false → isLoop P vm seq = .ok false) ∧
    (∀ (P : ProcessorParameters) (vm : GcodeVm) (seq : List GcodeCommand)
      (s e : Point) (vmEnd : GcodeVm),
      vm.logicalPositionKnown = true →
      vm.physicalPosition = .ok s →
      execAll vm seq = .ok vmEnd →
      vmEnd.physicalPosition = .ok e →
      isLoop P vm seq = .ok (JNum.ltb (e.distanceTo s) P.loopTolerance)) ∧
    (∀ (P : ProcessorParameters) (z : JNum) (vm : GcodeVm) (first : GcodeCommand)
      (stack : List GcodeCommand) (r : List GcodeCommand × ℕ),
      consumeWhileExtruding vm first stack = .ok r →
      isLoop P vm r.1 = .ok false →
      nextExtrusionSequence P z vm first stack = .ok r) ∧
    (∀ (P : ProcessorParameters) (z : JNum) (vm : GcodeVm) (first : GcodeCommand)
      (stack : List GcodeCommand) (r : List GcodeCommand × ℕ) (len : JNum),
      consumeWhileExtruding vm first stack = .ok r →
      isLoop P vm r.1 = .ok true →
      calculateSequenceLength vm r.1 = .ok len →
      JNum.ltb len P.taperResolution = true →
      nextExtrusionSequence P z vm first stack = .ok r) := by
  refine ⟨?_, ?_, ?_, ?_⟩
  · intro P vm seq h
    simp [isLoop, h]
  · intro P vm seq s e vmEnd hknown hs hex he
    simp [isLoop, hknown, hs, hex, he, exceptOkBind]
  · intro P z vm first stack r hcons hloop
    simp [nextExtrusionSequence, hcons, hloop, exceptOkBind]
  · intro P z vm first stack r len hcons hloop hlen hshort
    simp [nextExtrusionSequence, hcons, hloop, hlen, hshort, exceptOkBind]

/-- Witness for C6: from the power-on state (position unknown) the closure
test short-circuits to "not a loop". -/
theorem isLoop_closure_witness :
    isLoop ⟨"", .num 1, .num 6, .num 1, .num 1, .num 0⟩ GcodeVm.init [] =
      .ok false :=
  isLoop_closure_and_nonloop_passthrough.1
    ⟨"", .num 1, .num 6, .num 1, .num 1, .num 0⟩ GcodeVm.init [] rfl

/-- A move command is never one of the coordinate-change abort codes. -/
theorem asMove_not_coordChange {c : GcodeCommand} {sc : SimpleCommand}
    (h : asMove c = some sc) : isCoordinateChangeCode c = false := by
  cases c with
  | simple s =>
      obtain ⟨cmd, args, com⟩ := s
      cases cmd <;> simp_all [asMove, isCoordinateChangeCode]
  | comment s => simp [isCoordinateChangeCode]
  | unknown s => simp [isCoordinateChangeCode]

/-- The coordinate-change abort codes are not move commands. -/
theorem coordChange_asMove_none {c : GcodeCommand}
    (h : isCoordinateChangeCode c = true) : asMove c = none := by
  cases c with
  | simple s =>
      obtain ⟨cmd, args, com⟩ := s
      cases cmd <;> simp_all [asMove, isCoordinateChangeCode]
  | comment s => simp [isCoordinateChangeCode] at h
  | unknown s => simp [isCoordinateChangeCode] at h

/-- C5 counterexample: a position-mode switch to absolute (G90), and the
reset-to-native position reset (G92.1), inside the ending-taper replay do NOT
abort it: the replay returns successfully instead of raising the
coordinate-system-change condition, against the claim's "absolute" and
"reset-to-native" cases. -/
theorem makeEndingTaper_g90_g92_1_not_aborted :
    makeEndingTaper { GcodeVm.init with logicalPosition := Point.zero }
      [.simple ⟨.G90, [], ""⟩] (.num 1) = .ok [] ∧
    makeEndingTaper { GcodeVm.init with logicalPosition := Point.zero }
      [.simple ⟨.G92_1, [("X", .num 0), ("Y", .num 0), ("Z", .num 0)], ""⟩]
      (.num 1) = .ok [] := by
  constructor
  · rfl
  · rfl

/-- C5 as amended: the ending-taper replay aborts with the
coordinate-system-change condition exactly for a position-reset `G92` (not
its reset-to-native variant `G92.1`), a switch to relative positioning `G91`
(not to absolute `G90`), or a homing command `G28`: a replay that returns
successfully contains none of those three; one that reaches such a command at
its head raises the condition; and the condition is non-fatal — `nextExtrusionSequence`
catches it and returns the original, untouched run, so the rest of the
program is still processed. -/
theorem makeEndingTaper_abort_semantics :
    (∀ (overlap : JNum) (vm : GcodeVm) (sp : Point) (ac : JNum)
      (ts out : List GcodeCommand),
      makeEndingTaperGo overlap vm sp ac ts = .ok out →
      ∀ c ∈ ts, isCoordinateChangeCode c = false) ∧
    (∀ (overlap : JNum) (vm nv : GcodeVm) (sp : Point) (ac : JNum)
      (c : GcodeCommand) (post : List GcodeCommand),
      isCoordinateChangeCode c = true →
      vm.executeCommand c = .ok nv →
      makeEndingTaperGo overlap vm sp ac (c :: post) =
        .error .coordinateSystemChange) ∧
    (∀ (P : ProcessorParameters) (z : JNum) (vm : GcodeVm) (first : GcodeCommand)
      (stack : List GcodeCommand) (r : List GcodeCommand × ℕ) (len : JNum),
      consumeWhileExtruding vm first stack = .ok r →
      isLoop P vm r.1 = .ok true →
      calculateSequenceLength vm r.1 = .ok len →
      JNum.ltb len P.taperResolution = false →
      createOverlappedSequence P z vm r.1
        (JNum.minJ P.overlap (JNum.mul MAX_OVERLAP_LOOP_FRACTION len)) =
        .error .coordinateSystemChange →
      nextExtrusionSequence P z vm first stack = .ok r) := by
  refine ⟨?_, ?_, ?_⟩
  · intro overlap vm sp ac ts out
    revert vm sp ac out
    induction ts with
    | nil => intro vm sp ac out _ c hc; cases hc
    | cons c rest ih =>
        intro vm sp ac out hok d hd
        rw [makeEndingTaperGo] at hok
        cases hexec : vm.executeCommand c with
        | error e => simp only [hexec, exceptErrorBind] at hok; cases hok
        | ok nv =>
            simp only [hexec, exceptOkBind] at hok
            cases hmv : asMove c with
            | none =>
                simp only [hmv] at hok
                by_cases hcc : isCoordinateChangeCode c = true
                · rw [if_pos hcc] at hok; cases hok
                · rw [if_neg hcc] at hok
                  rcases List.mem_cons.mp hd with rfl | hd2
                  · simpa using hcc
                  · exact ih nv sp ac out hok d hd2
            | some sc =>
                simp only [hmv] at hok
                rcases List.mem_cons.mp hd with rfl | hd2
                · exact asMove_not_coordChange hmv
                · cases hpp : nv.physicalPosition with
                  | error e => simp only [hpp, exceptErrorBind] at hok; cases hok
                  | ok np =>
                      simp only [hpp, exceptOkBind] at hok
                      cases hrec : makeEndingTaperGo overlap nv np
                          (JNum.add ac (sp.distanceTo np)) rest with
                      | error e =>
                          simp only [hrec, exceptErrorBind] at hok; cases hok
                      | ok r2 => exact ih nv np _ r2 hrec d hd2
  · intro overlap vm nv sp ac c post hcc hexec
    rw [makeEndingTaperGo]
    simp only [hexec, exceptOkBind, coordChange_asMove_none hcc, hcc, if_true]
  · intro P z vm first stack r len hcons hloop hlen hshort hcr
    simp [nextExtrusionSequence, hcons, hloop, hlen, hshort, hcr, exceptOkBind]

/-- Witness for the amended C5: a bare `G92` at the head of the replay raises
the coordinate-system-change condition. -/
theorem makeEndingTaper_abort_witness :
    makeEndingTaperGo (.num 1) { GcodeVm.init with logicalPosition := Point.zero }
      Point.zero (.num 0) [.simple ⟨.G92, [], ""⟩] =
      .error .coordinateSystemChange :=
  makeEndingTaper_abort_semantics.2.1 (.num 1)
    { GcodeVm.init with logicalPosition := Point.zero } _ Point.zero (.num 0)
    (.simple ⟨.G92, [], ""⟩) [] rfl rfl

/-- Every command except G92, G92.1 and G28 leaves the physical offset
untouched. -/
theorem executeCommand_keeps_offset {vm nv : GcodeVm} {c : GcodeCommand}
    (hc : changesOffset c = false) (h : vm.executeCommand c = .ok nv) :
    nv.physicalOffset = vm.physicalOffset := by
  cases c with
  | comment s => cases h; rfl
  | unknown s => cases h; rfl
  | simple s =>
      obtain ⟨cmd, args, com⟩ := s
      cases cmd
      all_goals simp_all [changesOffset, GcodeVm.executeCommand,
        GcodeVm.executeSimpleCommand, GcodeVm.rawExecuteSimpleCommand,
        GcodeVm.executeMoveCommand, GcodeVm.executeArcCommand,
        GcodeVm.executeSetPositionModeCommand,
        GcodeVm.executeSetExtrusionModeCommand, isMoveCommand, exceptOkBind]
      all_goals (cases h; rfl)

/-- A finite result of the `Math.max(-, minSafeZ)` clamp is at least the
floor. -/
theorem maxJ_num_floor {A : JNum} {f w : ℝ} (h : JNum.maxJ A (.num f) = .num w) :
    f ≤ w := by
  cases A <;> simp [JNum.maxJ] at h
  · rcases h with rfl
    exact le_max_right _ _
  · rcases h with rfl
    exact le_refl f

/-- A command `asMove` rejects is not a move command. -/
theorem asMove_none_not_move {c : GcodeCommand} (h : asMove c = none) :
    isMoveCommand c = false := by
  cases c with
  | simple s =>
      obtain ⟨cmd, args, com⟩ := s
      cases cmd <;> simp_all [asMove, isMoveCommand]
  | comment s => rfl
  | unknown s => rfl

/-- The clamp invariant of the starting-taper replay loop: along a section
that never moves the physical offset, every emitted move's Z argument plus
the (constant) Z offset — that is, the physical Z the move commands — is at
least the floor. -/
theorem startingTaperGo_z_clamped :
    ∀ (ts : List GcodeCommand) (layerHeight ov : JNum) (f oz : ℝ)
      (vm : GcodeVm) (sp : Point) (ac : JNum) (out : List GcodeCommand),
      (∀ c ∈ ts, changesOffset c = false) →
      vm.physicalOffset.z = .num oz →
      makeStartingTaperGo layerHeight (.num f) ov vm sp ac ts = .ok out →
      ∀ sc : SimpleCommand, GcodeCommand.simple sc ∈ out →
        isMoveCommand (.simple sc) = true →
        ∀ zv : ℝ, sc.args.get? ("Z") = some (.num zv) →
        f ≤ zv + oz := by
  intro ts
  induction ts with
  | nil =>
      intro lh ov f oz vm sp ac out _ _ hok sc hsc
      cases hok
      cases hsc
  | cons c rest ih =>
      intro lh ov f oz vm sp ac out hclean hoz hok sc hsc hmove zv hz
      rw [makeStartingTaperGo] at hok
      cases hexec : vm.executeCommand c with
      | error e => simp only [hexec, exceptErrorBind] at hok; cases hok
      | ok nv =>
          have hoz2 : nv.physicalOffset.z = .num oz := by
            rw [executeCommand_keeps_offset
              (hclean c (List.mem_cons_self c rest)) hexec, hoz]
          simp only [hexec, exceptOkBind] at hok
          cases hmv : asMove c with
          | none =>
              simp only [hmv] at hok
              cases hrec : makeStartingTaperGo lh (.num f) ov nv sp ac rest with
              | error e => simp only [hrec, exceptErrorBind] at hok; cases hok
              | ok r2 =>
                  simp only [hrec, exceptOkBind] at hok
                  cases hok
                  rcases List.mem_cons.mp hsc with heq | hmem
                  · rw [← heq] at hmv
                    rw [asMove_none_not_move hmv] at hmove
                    cases hmove
                  · exact ih lh ov f oz nv sp ac r2
                      (fun d hd => hclean d (List.mem_cons_of_mem c hd)) hoz2 hrec
                      sc hmem hmove zv hz
          | some scm =>
              simp only [hmv] at hok
              cases hpp : nv.physicalPosition with
              | error e => simp only [hpp, exceptErrorBind] at hok; cases hok
              | ok np =>
                  simp only [hpp, exceptOkBind] at hok
                  cases hrec : makeStartingTaperGo lh (.num f) ov nv np
                      (JNum.add ac (sp.distanceTo np)) rest with
                  | error e => simp only [hrec, exceptErrorBind] at hok; cases hok
                  | ok r2 =>
                      simp only [hrec, exceptOkBind] at hok
                      cases hok
                      rcases List.mem_cons.mp hsc with heq | hmem
                      · have hargz : sc.args.get? ("Z") =
                            some (JNum.add
                              (JNum.maxJ
                                (JNum.sub np.z
                                  (JNum.mul (JNum.sub (.num 1)
                                    (JNum.div (JNum.add ac (sp.distanceTo np)) ov)) lh))
                                (.num f))
                              (JNum.mul vm.physicalOffset.z (JNum.num (-1)))) := by
                          cases heq
                          rw [Args.get?_set_of_ne _ _ (by decide),
                            Args.get?_set_self]
                          rfl
                        rw [hargz] at hz
                        rw [hoz] at hz
                        cases hmax : JNum.maxJ
                            (JNum.sub np.z
                              (JNum.mul (JNum.sub (.num 1)
                                (JNum.div (JNum.add ac (sp.distanceTo np)) ov)) lh))
                            (.num f) with
                        | num w =>
                            rw [hmax] at hz
                            simp only [JNum.mul_num, JNum.add_num] at hz
                            have hw : w + oz * (-1) = zv := by
                              injection hz with hz2
                              injection hz2
                            have hfw : f ≤ w := maxJ_num_floor hmax
                            nlinarith
                        | inf => rw [hmax] at hz; simp [JNum.add, JNum.mul] at hz
                        | ninf => rw [hmax] at hz; simp [JNum.add, JNum.mul] at hz
                        | nan => rw [hmax] at hz; simp [JNum.add, JNum.mul] at hz
                      · exact ih lh ov f oz nv np _ r2
                          (fun d hd => hclean d (List.mem_cons_of_mem c hd)) hoz2 hrec
                          sc hmem hmove zv hz

/-- C1: in the starting taper, each sample's vertical coordinate is the
original lowered by `(1 - t) * layer height` but clamped with
`Math.max(-, minSafeZ)`, so along a taper section that never moves the
physical offset, every move the starting taper emits commands a physical Z
(its Z argument plus the Z offset) at or above the safety floor. -/
theorem startingTaper_z_clamped_to_floor
    (layerHeight ov : JNum) (f oz : ℝ) (vm : GcodeVm) (ts out : List GcodeCommand)
    (hclean : ∀ c ∈ ts, changesOffset c = false)
    (hoz : vm.physicalOffset.z = .num oz)
    (hok : makeStartingTaper layerHeight (.num f) vm ts ov = .ok out) :
    ∀ sc : SimpleCommand, GcodeCommand.simple sc ∈ out →
      isMoveCommand (.simple sc) = true →
      ∀ zv : ℝ, sc.args.get? ("Z") = some (.num zv) → f ≤ zv + oz := by
  rw [makeStartingTaper] at hok
  cases hsp : vm.physicalPosition with
  | error e => simp only [hsp, exceptErrorBind] at hok; cases hok
  | ok sp =>
      simp only [hsp, exceptOkBind] at hok
      exact startingTaperGo_z_clamped ts layerHeight ov f oz vm sp (.num 0) out
        hclean hoz hok

/-- Witness for C1: a homed machine tapering a single 2 mm move with layer
height 1, overlap 2 and floor 0 emits the move with Z argument 0 (the clamp
engaged: the unclamped value would have been 0 − 0 = 0 after t = 1), and the
physical Z of the emitted sample is at or above the floor. -/
theorem startingTaper_z_clamped_witness :
    makeStartingTaper (.num 1) (.num 0)
      { GcodeVm.init with logicalPosition := Point.zero }
      [.simple ⟨.G1, [("X", .num 2), ("E", .num 1)], ""⟩] (.num 2) =
      .ok [.simple ⟨.G1, [("X", .num 2), ("E", .num 1), ("Z", .num 0)], ""⟩] ∧
    (0 : ℝ) ≤ 0 + 0 := by
  have hd : Point.distanceTo ⟨.num (0+0), .num (0+0), .num (0+0)⟩
      ⟨.num (2+0), .num (0+0), .num (0+0)⟩ = .num 2 := by
    rw [Point.distanceTo_num]
    have h4 : (((0 + 0 + -(2 + 0)) * (0 + 0 + -(2 + 0)) +
        (0 + 0 + -(0 + 0)) * (0 + 0 + -(0 + 0))) +
        (0 + 0 + -(0 + 0)) * (0 + 0 + -(0 + 0)) : ℝ) = 2 ^ 2 := by norm_num
    rw [h4, Real.sqrt_sq (by norm_num : (0:ℝ) ≤ 2)]
  have hok : makeStartingTaper (.num 1) (.num 0)
      { GcodeVm.init with logicalPosition := Point.zero }
      [.simple ⟨.G1, [("X", .num 2), ("E", .num 1)], ""⟩] (.num 2) =
      .ok [.simple ⟨.G1, [("X", .num 2), ("E", .num 1), ("Z", .num 0)], ""⟩] := by
    rw [makeStartingTaper]
    rw [show ({ GcodeVm.init with logicalPosition := Point.zero } :
        GcodeVm).physicalPosition =
        .ok ⟨.num (0+0), .num (0+0), .num (0+0)⟩ from rfl]
    rw [exceptOkBind]
    rw [makeStartingTaperGo]
    rw [show ({ GcodeVm.init with logicalPosition := Point.zero } :
        GcodeVm).executeCommand
        (.simple ⟨.G1, [("X", .num 2), ("E", .num 1)], ""⟩)
        = .ok { GcodeVm.init with
            logicalPosition := ⟨.num 2, .num 0, .num 0⟩,
            extrusion := .num (0 + 1),
            didExtrudeOnLastMove := JNum.ltb (.num 0) (.num (0 + 1)) } from rfl]
    rw [exceptOkBind]
    simp only [asMove, or_true, if_true]
    rw [show ({ GcodeVm.init with
            logicalPosition := ⟨JNum.num 2, JNum.num 0, JNum.num 0⟩,
            extrusion := JNum.num (0 + 1),
            didExtrudeOnLastMove := JNum.ltb (.num 0) (.num (0 + 1)) } :
        GcodeVm).physicalPosition
        = .ok ⟨.num (2+0), .num (0+0), .num (0+0)⟩ from rfl]
    rw [exceptOkBind]
    rw [hd]
    simp only [JNum.add_num]
    simp only [JNum.div_num_of_ne _ (two_ne_zero : (2:ℝ) ≠ 0)]
    simp only [makeStartingTaperGo]
    rw [exceptOkBind]
    simp only [GcodeVm.init, GcodeVm.convertPhysicalPositionToLogical,
      Point.toVector, vMul, Point.addVector, JNum.sub_num, JNum.mul_num,
      JNum.maxJ_num, JNum.add_num, Args.set, Point.zero,
      eq_false (show ¬(("X":String) = "E") by decide),
      eq_false (show ¬(("X":String) = "Z") by decide),
      eq_false (show ¬(("E":String) = "Z") by decide)]
    norm_num
    exact fun h => absurd h (by decide)
  refine ⟨hok, ?_⟩
  exact startingTaper_z_clamped_to_floor (.num 1) (.num 2) 0 0
    { GcodeVm.init with logicalPosition := Point.zero }
    [.simple ⟨.G1, [("X", .num 2), ("E", .num 1)], ""⟩]
    [.simple ⟨.G1, [("X", .num 2), ("E", .num 1), ("Z", .num 0)], ""⟩]
    (by
      intro c hc
      rw [List.mem_singleton.mp hc]
      rfl)
    rfl hok
    ⟨.G1, [("X", .num 2), ("E", .num 1), ("Z", .num 0)], ""⟩
    (List.mem_singleton.mpr rfl) rfl 0 rfl

/-- Casting a natural number to the JS-number domain. -/
theorem JNum.ofNat_eq (n : ℕ) : JNum.ofNat n = .num (n : ℝ) := rfl

/-- `Math.ceil` of a finite value, as used for the divideMove step count. -/
theorem JNum.toStepCount_num (x : ℝ) : (JNum.num x).toStepCount = (Int.ceil x).toNat := rfl

/-- Arithmetic facts about the divideMove step count `n = ceil(d / r)` for a
move of positive length `d` and positive resolution `r`: `n` is at least one,
`n` bounds `d / r` from above, and each of the `n` equal sub-steps has length
`d / n ≤ r`. -/
theorem stepcount_facts {d r : ℝ} (hdpos : 0 < d) (hrpos : 0 < r) :
    1 ≤ (Int.ceil (d / r)).toNat ∧
    d / r ≤ ((Int.ceil (d / r)).toNat : ℝ) ∧
    d / ((Int.ceil (d / r)).toNat : ℝ) ≤ r := by
  have hpos : (0 : ℝ) < d / r := div_pos hdpos hrpos
  have hcpos : 0 < Int.ceil (d / r) := Int.ceil_pos.mpr hpos
  have h1 : 1 ≤ (Int.ceil (d / r)).toNat := by omega
  have hcast : ((Int.ceil (d / r)).toNat : ℝ) = ((Int.ceil (d / r) : ℤ) : ℝ) := by
    exact_mod_cast congrArg (fun z : ℤ => (z : ℝ)) (Int.toNat_of_nonneg (le_of_lt hcpos))
  have h2 : d / r ≤ ((Int.ceil (d / r)).toNat : ℝ) := by
    rw [hcast]
    exact_mod_cast Int.le_ceil (d / r)
  refine ⟨h1, h2, ?_⟩
  have hnpos : (0 : ℝ) < ((Int.ceil (d / r)).toNat : ℝ) := by
    have := h1
    exact_mod_cast Nat.lt_of_lt_of_le Nat.zero_lt_one h1
  rw [div_le_iff₀ hnpos]
  have := (div_le_iff₀ hrpos).mp h2
  nlinarith

set_option maxHeartbeats 1000000 in
/-- Full symbolic evaluation of `divideMove` on a move whose start and end
physical positions, physical offset and extrusion values are finite: the
output is the two marker comments around `n = ceil(d / r)` copies of the
command, the i-th copy carrying logical X/Y/Z arguments for the point
`start + (i / n) · (end − start)` and an E argument of `(e2 − e1) / n`. -/
theorem divideMove_eval (vm nextVm : GcodeVm) (cmd : Code) (args0 : Args)
    (com : String) (sx sy sz ex ey ez o1 o2 o3 d r e1 e2 : ℝ)
    (hexec : vm.executeCommand (.simple ⟨cmd, args0, com⟩) = .ok nextVm)
    (hs : vm.physicalPosition = .ok ⟨.num sx, .num sy, .num sz⟩)
    (he : nextVm.physicalPosition = .ok ⟨.num ex, .num ey, .num ez⟩)
    (hdist : Point.distanceTo ⟨.num sx, .num sy, .num sz⟩
      ⟨.num ex, .num ey, .num ez⟩ = .num d)
    (hnorm : Scarf.norm (.num (ex + -sx), .num (ey + -sy), .num (ez + -sz)) = .num d)
    (hoff : vm.physicalOffset = ⟨.num o1, .num o2, .num o3⟩)
    (he1 : vm.extrusion = .num e1) (he2 : nextVm.extrusion = .num e2)
    (hd0 : d ≠ 0) (hn0 : ((Int.ceil (d / r)).toNat : ℝ) ≠ 0) (hr0 : r ≠ 0) :
    divideMove vm ⟨cmd, args0, com⟩ (.num r) = .ok
      ([GcodeCommand.comment ("Beginning of divided move")] ++
        (List.range (Int.ceil (d / r)).toNat).map (fun (i : ℕ) =>
          GcodeCommand.simple ⟨cmd,
            (((args0.set ("X") (.num (sx +
                (ex + -sx) * (1 / d) * (d / ((Int.ceil (d / r)).toNat : ℝ)) * (i : ℝ) +
                o1 * (-1)))).set ("Y") (.num (sy +
                (ey + -sy) * (1 / d) * (d / ((Int.ceil (d / r)).toNat : ℝ)) * (i : ℝ) +
                o2 * (-1)))).set ("Z") (.num (sz +
                (ez + -sz) * (1 / d) * (d / ((Int.ceil (d / r)).toNat : ℝ)) * (i : ℝ) +
                o3 * (-1)))).set ("E")
                (.num ((e2 + -e1) / ((Int.ceil (d / r)).toNat : ℝ))),
            com⟩) ++
        [GcodeCommand.comment ("End of divided move")]) := by
  rw [divideMove]
  rw [hexec, exceptOkBind, hs, exceptOkBind, he, exceptOkBind]
  simp only [hdist, JNum.div_num_of_ne _ hr0, JNum.toStepCount_num,
    JNum.ofNat_eq, JNum.div_num_of_ne _ hn0, Scarf.normalize, Scarf.vMul,
    Point.subtract, JNum.sub_num, hnorm, JNum.div_num_of_ne _ hd0,
    JNum.mul_num, he1, he2, hoff, JNum.add_num, Point.addVector,
    GcodeVm.convertPhysicalPositionToLogical, Point.toVector]

set_option maxHeartbeats 1000000 in
/-- Step count, sub-step length bound and even extrusion split of
`divideMove` (helper carrying C8's per-move content). -/
theorem divideMove_resample (vm nextVm : GcodeVm) (cmd : Code) (args0 : Args)
    (com : String) (sx sy sz ex ey ez o1 o2 o3 d r e1 e2 : ℝ)
    (hcmd : cmd = Code.G0 ∨ cmd = Code.G1)
    (hexec : vm.executeCommand (.simple ⟨cmd, args0, com⟩) = .ok nextVm)
    (hs : vm.physicalPosition = .ok ⟨.num sx, .num sy, .num sz⟩)
    (he : nextVm.physicalPosition = .ok ⟨.num ex, .num ey, .num ez⟩)
    (hdist : Point.distanceTo ⟨.num sx, .num sy, .num sz⟩
      ⟨.num ex, .num ey, .num ez⟩ = .num d)
    (hnorm : Scarf.norm (.num (ex + -sx), .num (ey + -sy), .num (ez + -sz)) = .num d)
    (hoff : vm.physicalOffset = ⟨.num o1, .num o2, .num o3⟩)
    (he1 : vm.extrusion = .num e1) (he2 : nextVm.extrusion = .num e2)
    (hdpos : 0 < d) (hrpos : 0 < r) :
    ∃ out, divideMove vm ⟨cmd, args0, com⟩ (.num r) = .ok out ∧
      (out.filter isMoveCommand).length = (Int.ceil (d / r)).toNat ∧
      d / ((Int.ceil (d / r)).toNat : ℝ) ≤ r ∧
      (∀ sc2 : SimpleCommand, GcodeCommand.simple sc2 ∈ out →
        sc2.args.get? ("E") =
          some (.num ((e2 + -e1) / ((Int.ceil (d / r)).toNat : ℝ)))) := by
  obtain ⟨hn1, hge, hle⟩ := stepcount_facts hdpos hrpos
  have hn0 : ((Int.ceil (d / r)).toNat : ℝ) ≠ 0 := by
    have : (1 : ℝ) ≤ ((Int.ceil (d / r)).toNat : ℝ) := by exact_mod_cast hn1
    linarith
  have heval := divideMove_eval vm nextVm cmd args0 com sx sy sz ex ey ez
    o1 o2 o3 d r e1 e2 hexec hs he hdist hnorm hoff he1 he2
    (ne_of_gt hdpos) hn0 (ne_of_gt hrpos)
  refine ⟨_, heval, ?_, hle, ?_⟩
  · rcases hcmd with rfl | rfl <;>
      simp [List.filter_append, List.filter_map, isMoveCommand,
        Function.comp_def]
  · intro sc2 hmem
    simp only [List.mem_append, List.mem_map, List.mem_singleton,
      List.mem_cons, List.not_mem_nil, or_false] at hmem
    rcases hmem with (h | ⟨i, hi, heq⟩) | h
    · cases h
    · cases heq
      exact Args.get?_set_self _ _ _
    · cases h

/-- `asMove` succeeds exactly on simple G0/G1 commands, returning them. -/
theorem asMove_eq_some {c : GcodeCommand} {sc : SimpleCommand}
    (h : asMove c = some sc) :
    c = .simple sc ∧ (sc.command = Code.G0 ∨ sc.command = Code.G1) := by
  cases c with
  | simple s =>
      by_cases hcmd : s.command = Code.G0 ∨ s.command = Code.G1
      · simp only [asMove, if_pos hcmd, Option.some_inj] at h
        subst h
        exact ⟨rfl, hcmd⟩
      · simp [asMove, hcmd] at h
  | comment s => simp [asMove] at h
  | unknown s => simp [asMove] at h

/-- Every command emitted by a successful `divideMove` is either a move or
one of the two marker comments. -/
theorem divideMove_ok_filter {vm : GcodeVm} {sc : SimpleCommand} {res : JNum}
    {out2 : List GcodeCommand}
    (hcmd : sc.command = Code.G0 ∨ sc.command = Code.G1)
    (h : divideMove vm sc res = .ok out2) :
    out2.filter (fun c => !isMoveCommand c && !isDivideMarker c) = [] := by
  rw [divideMove] at h
  cases hexec : vm.executeCommand (.simple sc) with
  | error e => simp only [hexec, exceptErrorBind] at h; cases h
  | ok nv =>
      simp only [hexec, exceptOkBind] at h
      cases hs : vm.physicalPosition with
      | error e => simp only [hs, exceptErrorBind] at h; cases h
      | ok s =>
          simp only [hs, exceptOkBind] at h
          cases he : nv.physicalPosition with
          | error e => simp only [he, exceptErrorBind] at h; cases h
          | ok e =>
              simp only [he, exceptOkBind] at h
              cases h
              rcases hcmd with hg | hg <;>
                simp [List.filter_append, List.filter_map, isMoveCommand,
                  isDivideMarker, hg, Function.comp_def]

/-- `divideSequence` preserves the subsequence of non-move commands: after
discarding moves and the two marker comments, the output equals the input
(helper carrying C8's retention content). -/
theorem divideSequence_keeps_nonmoves :
    ∀ (seq : List GcodeCommand) (vm : GcodeVm) (res : JNum)
      (out : List GcodeCommand),
      divideSequence vm seq res = .ok out →
      out.filter (fun c => !isMoveCommand c && !isDivideMarker c) =
        seq.filter (fun c => !isMoveCommand c && !isDivideMarker c) := by
  intro seq
  induction seq with
  | nil => intro vm res out h; cases h; rfl
  | cons c rest ih =>
      intro vm res out h
      rw [divideSequence] at h
      cases hexec : vm.executeCommand c with
      | error e => simp only [hexec, exceptErrorBind] at h; cases h
      | ok nv =>
          simp only [hexec, exceptOkBind] at h
          cases hmv : asMove c with
          | none =>
              simp only [hmv] at h
              cases hrec : divideSequence nv rest res with
              | error e => simp only [hrec, exceptErrorBind] at h; cases h
              | ok r2 =>
                  simp only [hrec, exceptOkBind] at h
                  cases h
                  simp only [List.filter_cons]
                  rw [ih nv res r2 hrec]
          | some sc =>
              simp only [hmv] at h
              obtain ⟨rfl, hcmd⟩ := asMove_eq_some hmv
              cases hdm : divideMove vm sc res with
              | error e => simp only [hdm, exceptErrorBind] at h; cases h
              | ok dm =>
                  simp only [hdm, exceptOkBind] at h
                  cases hrec : divideSequence nv rest res with
                  | error e => simp only [hrec, exceptErrorBind] at h; cases h
                  | ok r2 =>
                      simp only [hrec, exceptOkBind] at h
                      cases h
                      rw [List.filter_append, divideMove_ok_filter hcmd hdm,
                        List.nil_append, ih nv res r2 hrec, List.filter_cons]
                      rcases hcmd with hg | hg <;>
                        simp [isMoveCommand, hg]

/-- Evaluation of the vector norm from `util.ts` on finite components. -/
theorem norm_num_vec (a b c : ℝ) :
    Scarf.norm (.num a, .num b, .num c) =
      .num (Real.sqrt (((0 + a * a) + b * b) + c * c)) := by
  have hnn : (0:ℝ) ≤ ((0 + a * a) + b * b) + c * c :=
    add_nonneg (add_nonneg (add_nonneg le_rfl (mul_self_nonneg a))
      (mul_self_nonneg b)) (mul_self_nonneg c)
  rw [show Scarf.norm (.num a, .num b, .num c) =
    JNum.sqrt (.num (((0 + a * a) + b * b) + c * c)) from rfl]
  rw [JNum.sqrt_num_of_nonneg hnn]

/-- `physTarget` on a command with finite X/Y/Z arguments and a finite
offset. -/
theorem physTarget_some (off : Point) (sc : SimpleCommand) {x y z o1 o2 o3 : ℝ}
    (hx : sc.args.get? ("X") = some (.num x))
    (hy : sc.args.get? ("Y") = some (.num y))
    (hz : sc.args.get? ("Z") = some (.num z))
    (ho : off = ⟨.num o1, .num o2, .num o3⟩) :
    physTarget off sc = some (x + o1, y + o2, z + o3) := by
  subst ho
  unfold physTarget
  rw [hx, hy, hz]

/-- Concrete machine facts for the witnesses: from a freshly homed machine,
the move `G1 X2 E1` has start position (0,0,0), end position (2,0,0), length
2, zero offset, and extrusion going from 0 to 1. -/
theorem homedMove_facts :
    ({ GcodeVm.init with logicalPosition := Point.zero } : GcodeVm).executeCommand
      (.simple ⟨.G1, [("X", .num 2), ("E", .num 1)], ""⟩) = .ok
      { GcodeVm.init with
          logicalPosition := ⟨.num 2, .num 0, .num 0⟩,
          extrusion := .num (0 + 1),
          didExtrudeOnLastMove := JNum.ltb (.num 0) (.num (0 + 1)) } ∧
    ({ GcodeVm.init with logicalPosition := Point.zero } : GcodeVm).physicalPosition
      = .ok ⟨.num 0, .num 0, .num 0⟩ ∧
    ({ GcodeVm.init with
          logicalPosition := ⟨.num 2, .num 0, .num 0⟩,
          extrusion := .num (0 + 1),
          didExtrudeOnLastMove := JNum.ltb (.num 0) (.num (0 + 1)) } :
      GcodeVm).physicalPosition = .ok ⟨.num 2, .num 0, .num 0⟩ ∧
    Point.distanceTo ⟨.num 0, .num 0, .num 0⟩ ⟨.num 2, .num 0, .num 0⟩ = .num 2 ∧
    Scarf.norm (.num (2 + -0), .num (0 + -0), .num (0 + -0)) = .num 2 ∧
    ({ GcodeVm.init with logicalPosition := Point.zero } : GcodeVm).physicalOffset
      = ⟨.num 0, .num 0, .num 0⟩ ∧
    ({ GcodeVm.init with logicalPosition := Point.zero } : GcodeVm).extrusion
      = .num 0 ∧
    ({ GcodeVm.init with
          logicalPosition := ⟨.num 2, .num 0, .num 0⟩,
          extrusion := .num (0 + 1),
          didExtrudeOnLastMove := JNum.ltb (.num 0) (.num (0 + 1)) } :
      GcodeVm).extrusion = .num 1 := by
  refine ⟨rfl, ?_, ?_, ?_, ?_, rfl, rfl, ?_⟩
  · rw [show ({ GcodeVm.init with logicalPosition := Point.zero } :
      GcodeVm).physicalPosition = .ok ⟨.num (0+0), .num (0+0), .num (0+0)⟩ from rfl]
    norm_num
  · rw [show ({ GcodeVm.init with
        logicalPosition := ⟨.num 2, .num 0, .num 0⟩,
        extrusion := .num (0 + 1),
        didExtrudeOnLastMove := JNum.ltb (.num 0) (.num (0 + 1)) } :
      GcodeVm).physicalPosition = .ok ⟨.num (2+0), .num (0+0), .num (0+0)⟩ from rfl]
    norm_num
  · rw [Point.distanceTo_num]
    rw [show (((0:ℝ) + -2) * (0 + -2) + (0 + -0) * (0 + -0)) + (0 + -0) * (0 + -0)
      = (2:ℝ) ^ 2 by norm_num]
    rw [Real.sqrt_sq (by norm_num : (0:ℝ) ≤ 2)]
  · rw [norm_num_vec]
    rw [show ((0 + ((2:ℝ) + -0) * (2 + -0)) + (0 + -0) * (0 + -0)) + (0 + -0) * (0 + -0)
      = (2:ℝ) ^ 2 by norm_num]
    rw [Real.sqrt_sq (by norm_num : (0:ℝ) ≤ 2)]
  · rw [show ({ GcodeVm.init with
        logicalPosition := ⟨.num 2, .num 0, .num 0⟩,
        extrusion := .num (0 + 1),
        didExtrudeOnLastMove := JNum.ltb (.num 0) (.num (0 + 1)) } :
      GcodeVm).extrusion = .num (0 + 1) from rfl]
    norm_num

/-- C8: when the taper section is resampled, a move of positive length `d`
with finite endpoints and extrusion is subdivided by `divideMove` into
`n = ceil(d / r)` equal sub-steps (`n` is the number of emitted moves), the
common sub-step length `d / n` does not exceed the resolution `r`, and every
emitted sub-move carries the constant per-step extrusion `(e2 − e1) / n`
rather than an interpolated value; and `divideSequence` keeps every non-move
command of the sequence in its original position without duplication: after
discarding moves and the two divideMove marker comments, its output equals
its input. -/
theorem divideMove_resample_and_retention :
    (∀ (vm nextVm : GcodeVm) (cmd : Code) (args0 : Args) (com : String)
      (sx sy sz ex ey ez o1 o2 o3 d r e1 e2 : ℝ),
      (cmd = Code.G0 ∨ cmd = Code.G1) →
      vm.executeCommand (.simple ⟨cmd, args0, com⟩) = .ok nextVm →
      vm.physicalPosition = .ok ⟨.num sx, .num sy, .num sz⟩ →
      nextVm.physicalPosition = .ok ⟨.num ex, .num ey, .num ez⟩ →
      Point.distanceTo ⟨.num sx, .num sy, .num sz⟩
        ⟨.num ex, .num ey, .num ez⟩ = .num d →
      Scarf.norm (.num (ex + -sx), .num (ey + -sy), .num (ez + -sz)) = .num d →
      vm.physicalOffset = ⟨.num o1, .num o2, .num o3⟩ →
      vm.extrusion = .num e1 → nextVm.extrusion = .num e2 →
      0 < d → 0 < r →
      ∃ out, divideMove vm ⟨cmd, args0, com⟩ (.num r) = .ok out ∧
        (out.filter isMoveCommand).length = (Int.ceil (d / r)).toNat ∧
        d / ((Int.ceil (d / r)).toNat : ℝ) ≤ r ∧
        (∀ sc2 : SimpleCommand, GcodeCommand.simple sc2 ∈ out →
          sc2.args.get? ("E") =
            some (.num ((e2 + -e1) / ((Int.ceil (d / r)).toNat : ℝ))))) ∧
    (∀ (seq : List GcodeCommand) (vm : GcodeVm) (res : JNum)
      (out : List GcodeCommand),
      divideSequence vm seq res = .ok out →
      out.filter (fun c => !isMoveCommand c && !isDivideMarker c) =
        seq.filter (fun c => !isMoveCommand c && !isDivideMarker c)) :=
  ⟨fun vm nextVm cmd args0 com sx sy sz ex ey ez o1 o2 o3 d r e1 e2
      hcmd hexec hs he hdist hnorm hoff he1 he2 hdpos hrpos =>
    divideMove_resample vm nextVm cmd args0 com sx sy sz ex ey ez o1 o2 o3 d r
      e1 e2 hcmd hexec hs he hdist hnorm hoff he1 he2 hdpos hrpos,
   divideSequence_keeps_nonmoves⟩

/-- Witness for C8: a homed machine dividing the 2 mm move `G1 X2 E1` at
resolution 1 yields `ceil(2/1) = 2` sub-moves of length `1 ≤ 1`, each with E
argument `(1 − 0) / 2`. -/
theorem divideMove_resample_and_retention_witness :
    ∃ out, divideMove { GcodeVm.init with logicalPosition := Point.zero }
        ⟨.G1, [("X", .num 2), ("E", .num 1)], ""⟩ (.num 1) = .ok out ∧
      (out.filter isMoveCommand).length = (Int.ceil ((2:ℝ) / 1)).toNat ∧
      (2:ℝ) / ((Int.ceil ((2:ℝ) / 1)).toNat : ℝ) ≤ 1 ∧
      (∀ sc2 : SimpleCommand, GcodeCommand.simple sc2 ∈ out →
        sc2.args.get? ("E") =
          some (.num ((1 + -0) / ((Int.ceil ((2:ℝ) / 1)).toNat : ℝ)))) := by
  obtain ⟨hexec, hs, he, hdist, hnorm, hoff, he1, he2⟩ := homedMove_facts
  exact divideMove_resample_and_retention.1 _ _ .G1
    [("X", .num 2), ("E", .num 1)] "" 0 0 0 2 0 0 0 0 0 2 1 0 1
    (Or.inr rfl) hexec hs he hdist hnorm hoff he1 he2
    (by norm_num) (by norm_num)

set_option maxHeartbeats 1000000 in
/-- C10: a move that `divideMove` subdivides into `n = ceil(d / r)` sub-steps
emits exactly `n` sub-moves (between the two marker comments), the `i`-th of
which targets the physical point `start + (i / n) · (end − start)` for
`i = 0, …, n − 1`; the first sub-move targets the segment's own start point,
and no emitted sub-move targets the segment's original endpoint. -/
theorem divideMove_substep_targets (vm nextVm : GcodeVm) (cmd : Code) (args0 : Args)
    (com : String) (sx sy sz ex ey ez o1 o2 o3 d r e1 e2 : ℝ)
    (hexec : vm.executeCommand (.simple ⟨cmd, args0, com⟩) = .ok nextVm)
    (hs : vm.physicalPosition = .ok ⟨.num sx, .num sy, .num sz⟩)
    (he : nextVm.physicalPosition = .ok ⟨.num ex, .num ey, .num ez⟩)
    (hdist : Point.distanceTo ⟨.num sx, .num sy, .num sz⟩
      ⟨.num ex, .num ey, .num ez⟩ = .num d)
    (hnorm : Scarf.norm (.num (ex + -sx), .num (ey + -sy), .num (ez + -sz)) = .num d)
    (hoff : vm.physicalOffset = ⟨.num o1, .num o2, .num o3⟩)
    (he1 : vm.extrusion = .num e1) (he2 : nextVm.extrusion = .num e2)
    (hdpos : 0 < d) (hrpos : 0 < r) :
    ∃ out, divideMove vm ⟨cmd, args0, com⟩ (.num r) = .ok out ∧
      out.length = (Int.ceil (d / r)).toNat + 2 ∧
      (∀ (i : ℕ) (sc2 : SimpleCommand),
        out[i + 1]? = some (.simple sc2) → i < (Int.ceil (d / r)).toNat →
        physTarget vm.physicalOffset sc2 = some
          (sx + (i : ℝ) / ((Int.ceil (d / r)).toNat : ℝ) * (ex - sx),
           sy + (i : ℝ) / ((Int.ceil (d / r)).toNat : ℝ) * (ey - sy),
           sz + (i : ℝ) / ((Int.ceil (d / r)).toNat : ℝ) * (ez - sz))) ∧
      (∀ sc2 : SimpleCommand, out[0 + 1]? = some (.simple sc2) →
        physTarget vm.physicalOffset sc2 = some (sx, sy, sz)) ∧
      (∀ (i : ℕ) (sc2 : SimpleCommand),
        out[i + 1]? = some (.simple sc2) → i < (Int.ceil (d / r)).toNat →
        physTarget vm.physicalOffset sc2 ≠ some (ex, ey, ez)) := by
  obtain ⟨hn1, hge, hle⟩ := stepcount_facts hdpos hrpos
  have hnpos : (0:ℝ) < ((Int.ceil (d / r)).toNat : ℝ) := by
    exact_mod_cast Nat.lt_of_lt_of_le Nat.zero_lt_one hn1
  have hn0 : ((Int.ceil (d / r)).toNat : ℝ) ≠ 0 := ne_of_gt hnpos
  have hd0 : d ≠ 0 := ne_of_gt hdpos
  have heval := divideMove_eval vm nextVm cmd args0 com sx sy sz ex ey ez
    o1 o2 o3 d r e1 e2 hexec hs he hdist hnorm hoff he1 he2
    hd0 hn0 (ne_of_gt hrpos)
  have hne : ¬(ex = sx ∧ ey = sy ∧ ez = sz) := by
    rintro ⟨rfl, rfl, rfl⟩
    rw [norm_num_vec] at hnorm
    injection hnorm with hd2
    rw [show ((0 + (ex + -ex) * (ex + -ex)) + (ey + -ey) * (ey + -ey)) +
      (ez + -ez) * (ez + -ez) = (0:ℝ) by ring, Real.sqrt_zero] at hd2
    exact absurd hd2.symm (by linarith)
  refine ⟨_, heval, ?_, ?_, ?_, ?_⟩
  · simp
  · intro i sc2 hget hi
    rw [List.singleton_append, List.getElem?_append,
      if_pos (by simpa using Nat.succ_lt_succ hi),
      List.getElem?_cons_succ, List.getElem?_map, List.getElem?_range hi] at hget
    simp only [Option.map_some'] at hget
    injection hget with hget2
    injection hget2 with hget3
    subst hget3
    rw [physTarget_some _ _
      (by simp only [Args.get?_set_of_ne _ _ (show ("X":String) ≠ "E" by decide),
        Args.get?_set_of_ne _ _ (show ("X":String) ≠ "Z" by decide),
        Args.get?_set_of_ne _ _ (show ("X":String) ≠ "Y" by decide), Args.get?_set_self] <;> exact rfl)
      (by simp only [Args.get?_set_of_ne _ _ (show ("Y":String) ≠ "E" by decide),
        Args.get?_set_of_ne _ _ (show ("Y":String) ≠ "Z" by decide), Args.get?_set_self] <;> exact rfl)
      (by simp only [Args.get?_set_of_ne _ _ (show ("Z":String) ≠ "E" by decide),
        Args.get?_set_self] <;> exact rfl) hoff]
    have hcast : ∀ a b : ℝ, a + b * (1 / d) * (d / ((Int.ceil (d / r)).toNat : ℝ)) *
        (i : ℝ) + (fun o : ℝ => o * -1) 0 + 0 = a + b * (1 / d) *
        (d / ((Int.ceil (d / r)).toNat : ℝ)) * (i : ℝ) := by intro a b; simp
    refine congrArg some ?_
    refine Prod.ext ?_ (Prod.ext ?_ ?_)
    · show sx + (ex + -sx) * (1 / d) * (d / ((Int.ceil (d / r)).toNat : ℝ)) *
        (i : ℝ) + o1 * -1 + o1 = _
      field_simp
      ring
    · show sy + (ey + -sy) * (1 / d) * (d / ((Int.ceil (d / r)).toNat : ℝ)) *
        (i : ℝ) + o2 * -1 + o2 = _
      field_simp
      ring
    · show sz + (ez + -sz) * (1 / d) * (d / ((Int.ceil (d / r)).toNat : ℝ)) *
        (i : ℝ) + o3 * -1 + o3 = _
      field_simp
      ring
  · intro sc2 hget
    have hizero : 0 < (Int.ceil (d / r)).toNat := Nat.lt_of_lt_of_le Nat.zero_lt_one hn1
    rw [List.singleton_append, List.getElem?_append,
      if_pos (by simpa using Nat.succ_lt_succ hizero),
      List.getElem?_cons_succ, List.getElem?_map, List.getElem?_range hizero] at hget
    simp only [Option.map_some'] at hget
    injection hget with hget2
    injection hget2 with hget3
    subst hget3
    rw [physTarget_some _ _
      (by simp only [Args.get?_set_of_ne _ _ (show ("X":String) ≠ "E" by decide),
        Args.get?_set_of_ne _ _ (show ("X":String) ≠ "Z" by decide),
        Args.get?_set_of_ne _ _ (show ("X":String) ≠ "Y" by decide), Args.get?_set_self] <;> exact rfl)
      (by simp only [Args.get?_set_of_ne _ _ (show ("Y":String) ≠ "E" by decide),
        Args.get?_set_of_ne _ _ (show ("Y":String) ≠ "Z" by decide), Args.get?_set_self] <;> exact rfl)
      (by simp only [Args.get?_set_of_ne _ _ (show ("Z":String) ≠ "E" by decide),
        Args.get?_set_self] <;> exact rfl) hoff]
    refine congrArg some ?_
    refine Prod.ext ?_ (Prod.ext ?_ ?_)
    · show sx + (ex + -sx) * (1 / d) * (d / ((Int.ceil (d / r)).toNat : ℝ)) *
        ((0 : ℕ) : ℝ) + o1 * -1 + o1 = _
      push_cast
      ring
    · show sy + (ey + -sy) * (1 / d) * (d / ((Int.ceil (d / r)).toNat : ℝ)) *
        ((0 : ℕ) : ℝ) + o2 * -1 + o2 = _
      push_cast
      ring
    · show sz + (ez + -sz) * (1 / d) * (d / ((Int.ceil (d / r)).toNat : ℝ)) *
        ((0 : ℕ) : ℝ) + o3 * -1 + o3 = _
      push_cast
      ring
  · intro i sc2 hget hi
    rw [List.singleton_append, List.getElem?_append,
      if_pos (by simpa using Nat.succ_lt_succ hi),
      List.getElem?_cons_succ, List.getElem?_map, List.getElem?_range hi] at hget
    simp only [Option.map_some'] at hget
    injection hget with hget2
    injection hget2 with hget3
    subst hget3
    rw [physTarget_some _ _
      (by simp only [Args.get?_set_of_ne _ _ (show ("X":String) ≠ "E" by decide),
        Args.get?_set_of_ne _ _ (show ("X":String) ≠ "Z" by decide),
        Args.get?_set_of_ne _ _ (show ("X":String) ≠ "Y" by decide), Args.get?_set_self] <;> exact rfl)
      (by simp only [Args.get?_set_of_ne _ _ (show ("Y":String) ≠ "E" by decide),
        Args.get?_set_of_ne _ _ (show ("Y":String) ≠ "Z" by decide), Args.get?_set_self] <;> exact rfl)
      (by simp only [Args.get?_set_of_ne _ _ (show ("Z":String) ≠ "E" by decide),
        Args.get?_set_self] <;> exact rfl) hoff]
    intro hcontra
    have hkey : ∀ a b o : ℝ,
        a + (b + -a) * (1 / d) * (d / ((Int.ceil (d / r)).toNat : ℝ)) * (i : ℝ) +
          o * -1 + o = b → b = a := by
      intro a b o h
      have ht : (i : ℝ) / ((Int.ceil (d / r)).toNat : ℝ) < 1 :=
        (div_lt_one hnpos).mpr (by exact_mod_cast hi)
      have hu : (b + -a) * (1 / d) * (d / ((Int.ceil (d / r)).toNat : ℝ)) * (i : ℝ)
          = b - a := by linarith
      have hform : (b - a) * ((i : ℝ) / ((Int.ceil (d / r)).toNat : ℝ)) =
          (b + -a) * (1 / d) * (d / ((Int.ceil (d / r)).toNat : ℝ)) * (i : ℝ) := by
        rw [show (b + -a) * (1 / d) * (d / ((Int.ceil (d / r)).toNat : ℝ)) * (i : ℝ)
          = (b - a) * ((i : ℝ) * (d / d / ((Int.ceil (d / r)).toNat : ℝ))) from by ring,
          div_self hd0]
        ring
      have hu2 := hform.trans hu
      have h3 : (b - a) * ((i : ℝ) / ((Int.ceil (d / r)).toNat : ℝ) - 1) = 0 := by
        rw [mul_sub, mul_one, hu2, sub_self]
      rcases mul_eq_zero.mp h3 with h4 | h4
      · linarith [sub_eq_zero.mp h4]
      · exact absurd h4 (ne_of_lt (by linarith))
    simp only [Option.some.injEq, Prod.mk.injEq] at hcontra
    exact hne ⟨hkey sx ex o1 hcontra.1, hkey sy ey o2 hcontra.2.1,
      hkey sz ez o3 hcontra.2.2⟩

/-- Witness for C10: a homed machine dividing the move `G1 X2 E1` at
resolution 1 emits `2 + 2` commands whose sub-moves target
`(0 + i/2 · 2, 0, 0)`, starting at the segment start `(0,0,0)` and never
reaching the endpoint `(2,0,0)`. -/
theorem divideMove_substep_targets_witness :
    ∃ out, divideMove { GcodeVm.init with logicalPosition := Point.zero }
        ⟨.G1, [("X", .num 2), ("E", .num 1)], ""⟩ (.num 1) = .ok out ∧
      out.length = (Int.ceil ((2:ℝ) / 1)).toNat + 2 ∧
      (∀ (i : ℕ) (sc2 : SimpleCommand),
        out[i + 1]? = some (.simple sc2) → i < (Int.ceil ((2:ℝ) / 1)).toNat →
        physTarget ({ GcodeVm.init with logicalPosition := Point.zero } :
          GcodeVm).physicalOffset sc2 = some
          (0 + (i : ℝ) / ((Int.ceil ((2:ℝ) / 1)).toNat : ℝ) * (2 - 0),
           0 + (i : ℝ) / ((Int.ceil ((2:ℝ) / 1)).toNat : ℝ) * (0 - 0),
           0 + (i : ℝ) / ((Int.ceil ((2:ℝ) / 1)).toNat : ℝ) * (0 - 0))) ∧
      (∀ sc2 : SimpleCommand, out[0 + 1]? = some (.simple sc2) →
        physTarget ({ GcodeVm.init with logicalPosition := Point.zero } :
          GcodeVm).physicalOffset sc2 = some (0, 0, 0)) ∧
      (∀ (i : ℕ) (sc2 : SimpleCommand),
        out[i + 1]? = some (.simple sc2) → i < (Int.ceil ((2:ℝ) / 1)).toNat →
        physTarget ({ GcodeVm.init with logicalPosition := Point.zero } :
          GcodeVm).physicalOffset sc2 ≠ some (2, 0, 0)) := by
  obtain ⟨hexec, hs, he, hdist, hnorm, hoff, he1, he2⟩ := homedMove_facts
  exact divideMove_substep_targets _ _ .G1
    [("X", .num 2), ("E", .num 1)] "" 0 0 0 2 0 0 0 0 0 2 1 0 1
    hexec hs he hdist hnorm hoff he1 he2 (by norm_num) (by norm_num)

/-- The dry-run loop of `findMinimumSafeZ` expressed over the list of
intermediate machine states: it folds the minimum over the physical Z of
exactly the known-position states (no positioning-mode restriction). -/
theorem findGo_eq : ∀ (ls : List String) (vm : GcodeVm) (acc : JNum),
    findMinimumSafeZGo vm acc ls =
      (dryRunStates vm ls) >>= (fun sts =>
        if ((sts.filterMap countedZKnownOnly).foldl JNum.minJ acc).isFinite
        then .ok ((sts.filterMap countedZKnownOnly).foldl JNum.minJ acc)
        else .error .nonFiniteFloor) := by
  intro ls
  induction ls with
  | nil => intro vm acc; rfl
  | cons l ls ih =>
      intro vm acc
      rw [findMinimumSafeZGo, dryRunStates]
      cases hx : vm.executeLine l with
      | error e => simp only [hx, exceptErrorBind]
      | ok vm2 =>
          simp only [hx, exceptOkBind]
          by_cases hk : vm2.logicalPositionKnown = true
          · have hpp : vm2.physicalPosition =
                .ok (vm2.logicalPosition.addVector vm2.physicalOffset.toVector) := by
              rw [GcodeVm.physicalPosition, if_pos hk]
            have hcz : countedZKnownOnly vm2 =
                some (vm2.logicalPosition.addVector vm2.physicalOffset.toVector).z := by
              rw [countedZKnownOnly, if_pos hk, hpp]
            simp only [hk, if_true, hpp, exceptOkBind]
            rw [ih]
            cases hd : dryRunStates vm2 ls with
            | error e => simp only [hd, exceptErrorBind]
            | ok sts =>
                simp only [hd, exceptOkBind, List.filterMap_cons, hcz,
                  List.foldl_cons]
          · have hcz : countedZKnownOnly vm2 = none := by
              rw [countedZKnownOnly, if_neg hk]
            simp only [hk, if_false, Bool.false_eq_true]
            rw [ih]
            cases hd : dryRunStates vm2 ls with
            | error e => simp only [hd, exceptErrorBind]
            | ok sts =>
                simp only [hd, exceptOkBind, List.filterMap_cons, hcz]

/-- `findMinimumSafeZ` equals the spec-worded floor without the
positioning-mode conjunct. -/
theorem safeZ_A : ∀ lines, findMinimumSafeZ lines = specFloorKnownOnly lines := by
  intro lines
  rw [findMinimumSafeZ, specFloorKnownOnly, findGo_eq]

/-- A floor failure aborts `process` before any output. -/
theorem safeZ_B : ∀ (P : ProcessorParameters) (e : PErr),
    findMinimumSafeZ (jsCharSplit ('\n') P.gcode) = .error e →
    process P = .error e := by
  intro P e h
  rw [process]
  simp only [h, exceptErrorBind]

/-- Counterexample for C3: after `G28` and a switch to relative positioning
`G91`, the move `G0 Z-5` lowers the code floor to −5, while the claim's
floor — which only counts states in absolute positioning mode — stays 0. -/
theorem findMinimumSafeZ_mode_counterexample :
    findMinimumSafeZ ["G28", "G91", "G0 Z-5"] = .ok (.num (-5)) ∧
    specFloorWithMode ["G28", "G91", "G0 Z-5"] = .ok (.num 0) := by
  constructor
  · rw [show findMinimumSafeZ ["G28", "G91", "G0 Z-5"] =
      .ok (.num (min (min (min 0 (0+0)) (0+0))
        ((0 + ((-((5:ℚ) + 0 / 10 ^ 0) : ℚ) : ℝ)) + 0))) from rfl]
    norm_num
  · rw [show specFloorWithMode ["G28", "G91", "G0 Z-5"] =
      .ok (.num (min 0 (0+0))) from rfl]
    norm_num

/-- C3: the safety floor is one forward dry run over the whole program — it
equals the minimum, starting at 0 and only ever lowered, of the physical Z
over the dry-run states whose logical position is known, with no
positioning-mode restriction; and when the floor comes out non-finite the
whole operation fails with that error before any transform output is
produced. -/
theorem safeZ_floor_semantics :
    (∀ lines, findMinimumSafeZ lines = specFloorKnownOnly lines) ∧
    (∀ (P : ProcessorParameters) (e : PErr),
      findMinimumSafeZ (jsCharSplit ('\n') P.gcode) = .error e →
      process P = .error e) :=
  ⟨safeZ_A, safeZ_B⟩

/-- Witness for C3: the two floor computations agree on a homing program. -/
theorem safeZ_floor_semantics_witness :
    findMinimumSafeZ ["G28"] = specFloorKnownOnly ["G28"] :=
  safeZ_floor_semantics.1 ["G28"]

/-- C2, the code side: a program consisting of the prohibited instruction
`G60` is not rejected; `process` succeeds and passes the line through. -/
theorem process_G60_passes_through : process ⟨"G60", .num 1, .num 1, .num 1, .num 1, .num 1⟩ =
    .ok ("G60") := by
  rw [process]
  rw [show findMinimumSafeZ (jsCharSplit ('\n') ("G60")) = .ok (.num 0) from rfl]
  rw [exceptOkBind]
  rw [show (jsCharSplit ('\n') ("G60")).map parseCommand =
    [GcodeCommand.unknown ("G60")] from rfl]
  rw [processGo]
  rw [show isExtrusionStart GcodeVm.init (.unknown ("G60")) =
    .ok (JNum.ltb (.num 0) (.num 0)) from rfl]
  rw [exceptOkBind]
  rw [show JNum.ltb (.num 0) (.num 0) = false by
    rw [JNum.ltb_num]; norm_num]
  simp only [Bool.false_eq_true, if_false]
  rw [show GcodeVm.init.executeCommand (.unknown ("G60")) = .ok GcodeVm.init from rfl]
  rw [exceptOkBind, processGo, exceptOkBind]
  rfl

/-- The closure test of the arc-containing run fails with the fatal
unknown-position error: the arc leaves X and Y unknown at the run's end. -/
theorem isLoop_c9 : isLoop (⟨"G28\nG1 X1 E1\nG2 X0", .num 1, .num 1, .num 1, .num 1, .num 1⟩ : ProcessorParameters)
    ({ GcodeVm.init with logicalPosition := Point.zero } : GcodeVm) [GcodeCommand.simple ⟨.G1, [("X", .num (((1:ℚ) + 0 / 10 ^ 0 : ℚ) : ℝ)), ("E", .num (((1:ℚ) + 0 / 10 ^ 0 : ℚ) : ℝ))], ""⟩, GcodeCommand.simple ⟨.G2, [("X", .num (((0:ℚ) + 0 / 10 ^ 0 : ℚ) : ℝ))], ""⟩] = .error .unknownPosition := by
  rw [isLoop]
  rw [show (!({ GcodeVm.init with logicalPosition := Point.zero } : GcodeVm).logicalPositionKnown) = false from rfl]
  simp only [Bool.false_eq_true, if_false]
  rw [show ({ GcodeVm.init with logicalPosition := Point.zero } : GcodeVm).physicalPosition =
    .ok ⟨.num (0+0), .num (0+0), .num (0+0)⟩ from rfl]
  rw [exceptOkBind]
  rw [show execAll ({ GcodeVm.init with logicalPosition := Point.zero } : GcodeVm) [GcodeCommand.simple ⟨.G1, [("X", .num (((1:ℚ) + 0 / 10 ^ 0 : ℚ) : ℝ)), ("E", .num (((1:ℚ) + 0 / 10 ^ 0 : ℚ) : ℝ))], ""⟩, GcodeCommand.simple ⟨.G2, [("X", .num (((0:ℚ) + 0 / 10 ^ 0 : ℚ) : ℝ))], ""⟩] = .ok
    ({ positionMode := MoveMode.absolute,
              extrusionMode := MoveMode.relative,
              logicalPosition := ⟨.inf, .inf, .num 0⟩,
              extrusion := .num (0 + (((1:ℚ) + 0 / 10 ^ 0 : ℚ) : ℝ)), feedRate := .num 0,
              didExtrudeOnLastMove := JNum.ltb (.num 0) (.num (0 + (((1:ℚ) + 0 / 10 ^ 0 : ℚ) : ℝ))),
              physicalOffset := Point.zero, physicalEOffset := .num 0 } : GcodeVm) from rfl]
  rw [exceptOkBind]
  rw [show ({ positionMode := MoveMode.absolute,
              extrusionMode := MoveMode.relative,
              logicalPosition := ⟨.inf, .inf, .num 0⟩,
              extrusion := .num (0 + (((1:ℚ) + 0 / 10 ^ 0 : ℚ) : ℝ)), feedRate := .num 0,
              didExtrudeOnLastMove := JNum.ltb (.num 0) (.num (0 + (((1:ℚ) + 0 / 10 ^ 0 : ℚ) : ℝ))),
              physicalOffset := Point.zero, physicalEOffset := .num 0 } : GcodeVm).physicalPosition = .error .unknownPosition from rfl]
  rw [exceptErrorBind]

/-- C9: with the logical position known when the extrusion run begins
(after `G28`), an arc `G2` inside the run makes X and Y unknown, the closure
test then queries the physical position and the whole conversion terminates
with the fatal unknown-position error instead of emitting the run
unchanged. -/
theorem process_arc_in_run_unknown_position : process (⟨"G28\nG1 X1 E1\nG2 X0", .num 1, .num 1, .num 1, .num 1, .num 1⟩ : ProcessorParameters) = .error .unknownPosition := by
  have hq1 : JNum.ltb (.num 0) (.num (0 + (((1:ℚ) + 0 / 10 ^ 0 : ℚ) : ℝ))) = true := by
    rw [JNum.ltb_num, decide_eq_true_eq]
    push_cast
    norm_num
  rw [process]
  rw [show findMinimumSafeZ (jsCharSplit ('\n') ("G28\nG1 X1 E1\nG2 X0")) =
    .ok (.num (min (min 0 (0+0)) (0+0))) from rfl]
  rw [exceptOkBind]
  rw [show (jsCharSplit ('\n') ("G28\nG1 X1 E1\nG2 X0")).map parseCommand =
    [GcodeCommand.simple ⟨.G28, [], ""⟩, GcodeCommand.simple ⟨.G1, [("X", .num (((1:ℚ) + 0 / 10 ^ 0 : ℚ) : ℝ)), ("E", .num (((1:ℚ) + 0 / 10 ^ 0 : ℚ) : ℝ))], ""⟩, GcodeCommand.simple ⟨.G2, [("X", .num (((0:ℚ) + 0 / 10 ^ 0 : ℚ) : ℝ))], ""⟩] from rfl]
  rw [processGo]
  rw [show isExtrusionStart GcodeVm.init (GcodeCommand.simple ⟨.G28, [], ""⟩) =
    .ok (JNum.ltb (.num 0) (.num 0)) from rfl]
  rw [exceptOkBind]
  rw [show JNum.ltb (.num 0) (.num 0) = false by rw [JNum.ltb_num]; norm_num]
  simp only [Bool.false_eq_true, if_false]
  rw [show GcodeVm.init.executeCommand (GcodeCommand.simple ⟨.G28, [], ""⟩) =
    .ok { GcodeVm.init with logicalPosition := Point.zero } from rfl]
  rw [exceptOkBind]
  rw [processGo]
  rw [show isExtrusionStart ({ GcodeVm.init with logicalPosition := Point.zero } : GcodeVm) (GcodeCommand.simple ⟨.G1, [("X", .num (((1:ℚ) + 0 / 10 ^ 0 : ℚ) : ℝ)), ("E", .num (((1:ℚ) + 0 / 10 ^ 0 : ℚ) : ℝ))], ""⟩) =
    .ok (JNum.ltb (.num 0) (.num (0 + (((1:ℚ) + 0 / 10 ^ 0 : ℚ) : ℝ)))) from rfl]
  rw [exceptOkBind, hq1]
  simp only [if_true]
  rw [nextExtrusionSequence, consumeWhileExtruding]
  rw [show ({ GcodeVm.init with logicalPosition := Point.zero } : GcodeVm).executeCommand (GcodeCommand.simple ⟨.G1, [("X", .num (((1:ℚ) + 0 / 10 ^ 0 : ℚ) : ℝ)), ("E", .num (((1:ℚ) + 0 / 10 ^ 0 : ℚ) : ℝ))], ""⟩) = .ok
    ({ positionMode := MoveMode.absolute,
              extrusionMode := MoveMode.relative,
              logicalPosition := ⟨.num (((1:ℚ) + 0 / 10 ^ 0 : ℚ) : ℝ), .num 0, .num 0⟩,
              extrusion := .num (0 + (((1:ℚ) + 0 / 10 ^ 0 : ℚ) : ℝ)), feedRate := .num 0,
              didExtrudeOnLastMove := JNum.ltb (.num 0) (.num (0 + (((1:ℚ) + 0 / 10 ^ 0 : ℚ) : ℝ))),
              physicalOffset := Point.zero, physicalEOffset := .num 0 } : GcodeVm) from rfl]
  rw [exceptOkBind]
  rw [consumeWhileExtrudingGo]
  rw [show ({ positionMode := MoveMode.absolute,
              extrusionMode := MoveMode.relative,
              logicalPosition := ⟨.num (((1:ℚ) + 0 / 10 ^ 0 : ℚ) : ℝ), .num 0, .num 0⟩,
              extrusion := .num (0 + (((1:ℚ) + 0 / 10 ^ 0 : ℚ) : ℝ)), feedRate := .num 0,
              didExtrudeOnLastMove := JNum.ltb (.num 0) (.num (0 + (((1:ℚ) + 0 / 10 ^ 0 : ℚ) : ℝ))),
              physicalOffset := Point.zero, physicalEOffset := .num 0 } : GcodeVm).executeCommand (GcodeCommand.simple ⟨.G2, [("X", .num (((0:ℚ) + 0 / 10 ^ 0 : ℚ) : ℝ))], ""⟩) = .ok
    ({ positionMode := MoveMode.absolute,
              extrusionMode := MoveMode.relative,
              logicalPosition := ⟨.inf, .inf, .num 0⟩,
              extrusion := .num (0 + (((1:ℚ) + 0 / 10 ^ 0 : ℚ) : ℝ)), feedRate := .num 0,
              didExtrudeOnLastMove := JNum.ltb (.num 0) (.num (0 + (((1:ℚ) + 0 / 10 ^ 0 : ℚ) : ℝ))),
              physicalOffset := Point.zero, physicalEOffset := .num 0 } : GcodeVm) from rfl]
  rw [exceptOkBind]
  rw [show ({ positionMode := MoveMode.absolute,
              extrusionMode := MoveMode.relative,
              logicalPosition := ⟨.inf, .inf, .num 0⟩,
              extrusion := .num (0 + (((1:ℚ) + 0 / 10 ^ 0 : ℚ) : ℝ)), feedRate := .num 0,
              didExtrudeOnLastMove := JNum.ltb (.num 0) (.num (0 + (((1:ℚ) + 0 / 10 ^ 0 : ℚ) : ℝ))),
              physicalOffset := Point.zero, physicalEOffset := .num 0 } : GcodeVm).didExtrudeOnLastMove =
    JNum.ltb (.num 0) (.num (0 + (((1:ℚ) + 0 / 10 ^ 0 : ℚ) : ℝ))) from rfl, hq1]
  simp only [if_true]
  rw [consumeWhileExtrudingGo, exceptOkBind, exceptOkBind, exceptOkBind]
  rw [isLoop_c9]
  rw [exceptErrorBind, exceptErrorBind, exceptErrorBind, exceptErrorBind]

/-- Splitting a chunk free of the separator yields one piece. -/
theorem jsCharSplitGo_no_sep (sep : Char) :
    ∀ (cs acc : List Char), sep ∉ cs →
    jsCharSplitGo sep cs acc = [String.mk (acc.reverse ++ cs)] := by
  intro cs
  induction cs with
  | nil => intro acc h; simp [jsCharSplitGo]
  | cons c rest ih =>
      intro acc h
      rw [jsCharSplitGo]
      rw [if_neg (by rintro rfl; exact h (List.mem_cons_self _ _))]
      rw [ih (c :: acc) (fun hm => h (List.mem_cons_of_mem _ hm))]
      simp

/-- Splitting around a single separator yields the two pieces. -/
theorem jsCharSplitGo_one_sep (sep : Char) :
    ∀ (l1 l2 acc : List Char), sep ∉ l1 → sep ∉ l2 →
    jsCharSplitGo sep (l1 ++ sep :: l2) acc =
      [String.mk (acc.reverse ++ l1), String.mk l2] := by
  intro l1
  induction l1 with
  | nil =>
      intro l2 acc h1 h2
      rw [List.nil_append, jsCharSplitGo, if_pos rfl,
        jsCharSplitGo_no_sep sep l2 [] h2]
      simp
  | cons c rest ih =>
      intro l2 acc h1 h2
      rw [List.cons_append, jsCharSplitGo]
      rw [if_neg (by rintro rfl; exact h1 (List.mem_cons_self _ _))]
      rw [ih l2 (c :: acc) (fun hm => h1 (List.mem_cons_of_mem _ hm)) h2]
      simp

/-- A decimal digit character is not the decimal point. -/
theorem digitChar_ne_dot (n : ℕ) (h : n < 10) : Nat.digitChar n ≠ '.' := by
  interval_cases n <;> decide

/-- The integer-digits loop emits no decimal point. -/
theorem natDigitsGo_ne_dot : ∀ (fuel n : ℕ) (acc : List Char),
    (∀ c ∈ acc, c ≠ '.') → ∀ c ∈ natDigitsGo fuel n acc, c ≠ '.' := by
  intro fuel
  induction fuel with
  | zero => intro n acc hacc c hc; exact hacc c hc
  | succ f ih =>
      intro n acc hacc c hc
      rw [natDigitsGo] at hc
      by_cases hn : n = 0
      · rw [if_pos hn] at hc; exact hacc c hc
      · rw [if_neg hn] at hc
        refine ih _ _ ?_ c hc
        intro c2 hc2
        rcases List.mem_cons.mp hc2 with rfl | h2
        · exact digitChar_ne_dot _ (Nat.mod_lt _ (by norm_num))
        · exact hacc c2 h2

/-- The integer numeral contains no decimal point. -/
theorem natDigits_ne_dot (n : ℕ) : ∀ c ∈ natDigits n, c ≠ '.' := by
  rw [natDigits]
  by_cases h : n = 0
  · rw [if_pos h]
    intro c hc
    rcases List.mem_singleton.mp hc with rfl
    decide
  · rw [if_neg h]
    exact natDigitsGo_ne_dot n n [] (by intro c hc; cases hc)

/-- The fraction block contains no decimal point. -/
theorem fracDigits_ne_dot (fp p : ℕ) : ∀ c ∈ fracDigits fp p, c ≠ '.' := by
  intro c hc
  rw [fracDigits] at hc
  obtain ⟨i, hi, rfl⟩ := List.mem_map.mp hc
  exact digitChar_ne_dot _ (Nat.mod_lt _ (by norm_num))

/-- `toFixed(p)` on a finite value renders exactly `p` decimal places. -/
theorem decimalPlaces_jsToFixed (v : ℝ) (p : ℕ) :
    decimalPlaces (jsToFixed (.num v) p) = p := by
  rw [jsToFixed]
  by_cases hp : p = 0
  · subst hp
    rw [if_pos rfl]
    by_cases hm : Int.floor (v * (10:ℝ) ^ (0:ℕ) + 1 / 2) < 0
    · rw [if_pos hm, decimalPlaces, jsCharSplit]
      rw [show (("-" : String) ++
        String.mk (natDigits ((Int.floor (v * (10:ℝ) ^ (0:ℕ) + 1 / 2)).natAbs / 10 ^ 0)) ++
        ("" : String)).toList = '-' ::
        natDigits ((Int.floor (v * (10:ℝ) ^ (0:ℕ) + 1 / 2)).natAbs / 10 ^ 0) from by
          simp [String.toList]]
      rw [jsCharSplitGo_no_sep _ _ _ (by
        intro hmem
        rcases List.mem_cons.mp hmem with h | h
        · exact absurd h.symm (by decide)
        · exact natDigits_ne_dot _ _ h rfl)]
    · rw [if_neg hm, decimalPlaces, jsCharSplit]
      rw [show ((("" : String)) ++
        String.mk (natDigits ((Int.floor (v * (10:ℝ) ^ (0:ℕ) + 1 / 2)).natAbs / 10 ^ 0)) ++
        ("" : String)).toList =
        natDigits ((Int.floor (v * (10:ℝ) ^ (0:ℕ) + 1 / 2)).natAbs / 10 ^ 0) from by
          simp [String.toList]]
      rw [jsCharSplitGo_no_sep _ _ _ (by
        intro hmem
        exact natDigits_ne_dot _ _ hmem rfl)]
  · rw [if_neg hp]
    by_cases hm : Int.floor (v * (10:ℝ) ^ p + 1 / 2) < 0
    · rw [if_pos hm, decimalPlaces, jsCharSplit]
      rw [show (("-" : String) ++
        String.mk (natDigits ((Int.floor (v * (10:ℝ) ^ p + 1 / 2)).natAbs / 10 ^ p)) ++
        (("." : String) ++ String.mk (fracDigits
          ((Int.floor (v * (10:ℝ) ^ p + 1 / 2)).natAbs % 10 ^ p) p))).toList =
        ('-' :: natDigits ((Int.floor (v * (10:ℝ) ^ p + 1 / 2)).natAbs / 10 ^ p)) ++
        '.' :: fracDigits ((Int.floor (v * (10:ℝ) ^ p + 1 / 2)).natAbs % 10 ^ p) p from by
          simp [String.toList]]
      rw [jsCharSplitGo_one_sep _ _ _ _ (by
          intro hmem
          rcases List.mem_cons.mp hmem with h | h
          · exact absurd h.symm (by decide)
          · exact natDigits_ne_dot _ _ h rfl)
        (fun hmem => fracDigits_ne_dot _ _ _ hmem rfl)]
      simp [fracDigits, String.length]
    · rw [if_neg hm, decimalPlaces, jsCharSplit]
      rw [show ((("" : String)) ++
        String.mk (natDigits ((Int.floor (v * (10:ℝ) ^ p + 1 / 2)).natAbs / 10 ^ p)) ++
        (("." : String) ++ String.mk (fracDigits
          ((Int.floor (v * (10:ℝ) ^ p + 1 / 2)).natAbs % 10 ^ p) p))).toList =
        (natDigits ((Int.floor (v * (10:ℝ) ^ p + 1 / 2)).natAbs / 10 ^ p)) ++
        '.' :: fracDigits ((Int.floor (v * (10:ℝ) ^ p + 1 / 2)).natAbs % 10 ^ p) p from by
          simp [String.toList]]
      rw [jsCharSplitGo_one_sep _ _ _ _
        (fun hmem => natDigits_ne_dot _ _ hmem rfl)
        (fun hmem => fracDigits_ne_dot _ _ _ hmem rfl)]
      simp [fracDigits, String.length]

/-- A line parsed as a comment serializes back to the original line. -/
theorem parse_comment_roundtrip (line : String) (s : String)
    (h : parseCommand line = .comment s) :
    stringifyCommand (parseCommand line) = line := by
  rw [h, stringifyCommand]
  rw [parseCommand] at h
  split at h
  · next rest heq =>
      injection h with h2
      subst h2
      obtain ⟨data⟩ := line
      rw [show (String.mk data).toList = data from rfl] at heq
      subst heq
      rfl
  · split at h <;> cases h

/-- A passthrough line serializes back to the original line. -/
theorem parse_unknown_roundtrip (line : String) (s : String)
    (h : parseCommand line = .unknown s) :
    stringifyCommand (parseCommand line) = line := by
  rw [h, stringifyCommand]
  rw [parseCommand] at h
  split at h
  · cases h
  · split at h
    · cases h
    · injection h with h2
      subst h2
      rfl

/-- C7: serializing the parsed command is the identity on comment lines and
on passthrough lines — they round-trip byte-for-byte; a recognized command
renders each argument as the key followed by the value in fixed-point with
exactly 3 decimal places for X, Y and Z, 5 for E, and 0 for any other
argument key. -/
theorem stringify_roundtrip_and_precision :
    (∀ line s, parseCommand line = .comment s →
      stringifyCommand (parseCommand line) = line) ∧
    (∀ line s, parseCommand line = .unknown s →
      stringifyCommand (parseCommand line) = line) ∧
    (argPrecision ("X") = 3 ∧ argPrecision ("Y") = 3 ∧ argPrecision ("Z") = 3 ∧
      argPrecision ("E") = 5 ∧
      ∀ k, k ≠ "X" → k ≠ "Y" → k ≠ "Z" → k ≠ "E" → argPrecision k = 0) ∧
    (∀ (sc : SimpleCommand), stringifySimpleCommand sc =
      sc.command.str ++ " " ++ String.intercalate (" ")
        (sc.args.map (fun q => q.1 ++ jsToFixed q.2 (argPrecision q.1))) ++
      (if sc.comment == "" then "" else ";" ++ sc.comment)) ∧
    (∀ (v : ℝ) (p : ℕ), decimalPlaces (jsToFixed (.num v) p) = p) := by
  refine ⟨parse_comment_roundtrip, parse_unknown_roundtrip,
    ⟨rfl, rfl, rfl, rfl, ?_⟩, fun sc => rfl, decimalPlaces_jsToFixed⟩
  intro k h1 h2 h3 h4
  rw [argPrecision]
  rw [if_neg (by simpa using ⟨h1, h2, h3⟩)]
  rw [if_neg (by simpa using h4)]

/-- Witness for C7: a comment line round-trips byte-for-byte, and a spatial
argument renders with exactly 3 decimal places. -/
theorem stringify_roundtrip_witness :
    stringifyCommand (parseCommand (";hello")) = ";hello" ∧
    decimalPlaces (jsToFixed (.num 1) 3) = 3 :=
  ⟨stringify_roundtrip_and_precision.1 (";hello") ("hello") rfl,
   stringify_roundtrip_and_precision.2.2.2.2 1 3⟩

/-- `toFixed(3)` on −7 renders "-7.000". -/
theorem jsToFixed_neg7 :
    jsToFixed (.num ((-((7:ℚ) + 0 / 10 ^ 0) : ℚ) : ℝ)) 3 = "-7.000" := by
  rw [jsToFixed]
  rw [show Int.floor (((-((7:ℚ) + 0 / 10 ^ 0) : ℚ) : ℝ) * (10:ℝ) ^ (3:ℕ) + 1 / 2) =
      (-7000 : ℤ) from by
    rw [Int.floor_eq_iff]
    constructor <;> push_cast <;> norm_num]
  rfl

/-- The emitted line `G0 Z-7.000` parses back as a G0 carrying Z −7. -/
theorem parseCommand_G0_Zneg7 :
    parseCommand ("G0 Z-7.000") = .simple ⟨.G0, [("Z", .num (-7))], ""⟩ := by
  rw [show parseCommand ("G0 Z-7.000") =
    .simple ⟨.G0, [("Z", .num ((-((7:ℚ) + 0 / 10 ^ 3) : ℚ) : ℝ))], ""⟩ from rfl]
  norm_num

/-- Counterexample for C1: the output program of the transform can emit an
absolute Z value below the computed safety floor.  The program `G0 Z-7`
followed by `G28` starts in absolute positioning mode (the power-on default),
moves to Z −7 while the logical position is still unknown — a state the floor
dry run skips — and then homes; the computed floor is 0, yet `process`
succeeds and its output's first line, `G0 Z-7.000`, is an absolute-mode move
whose Z value −7 lies strictly below the floor. -/
theorem process_z_floor_counterexample :
    process ⟨"G0 Z-7\nG28", .num 1, .num 1, .num 1, .num 1, .num 1⟩ =
      .ok ("G0 Z-7.000\nG28 ") ∧
    findMinimumSafeZ (jsCharSplit ('\n') ("G0 Z-7\nG28")) = .ok (.num 0) ∧
    GcodeVm.init.positionMode = MoveMode.absolute ∧
    parseCommand ("G0 Z-7.000") = .simple ⟨.G0, [("Z", .num (-7))], ""⟩ ∧
    ((-7 : ℝ) < 0) := by
  refine ⟨?_, ?_, rfl, parseCommand_G0_Zneg7, by norm_num⟩
  · rw [process]
    rw [show findMinimumSafeZ (jsCharSplit ('\n') ("G0 Z-7\nG28")) =
      .ok (.num (min 0 (0+0))) from rfl]
    rw [exceptOkBind]
    rw [show (jsCharSplit ('\n') ("G0 Z-7\nG28")).map parseCommand =
      [GcodeCommand.simple ⟨.G0, [("Z", .num ((-((7:ℚ) + 0 / 10 ^ 0) : ℚ) : ℝ))], ""⟩, GcodeCommand.simple ⟨.G28, [], ""⟩] from rfl]
    rw [processGo]
    rw [show isExtrusionStart GcodeVm.init (GcodeCommand.simple ⟨.G0, [("Z", .num ((-((7:ℚ) + 0 / 10 ^ 0) : ℚ) : ℝ))], ""⟩) =
      .ok (JNum.ltb (.num 0) (.num (0 + 0))) from rfl]
    rw [exceptOkBind]
    rw [show JNum.ltb (.num 0) (.num (0 + 0)) = false by
      rw [JNum.ltb_num]; norm_num]
    simp only [Bool.false_eq_true, if_false]
    rw [show GcodeVm.init.executeCommand (GcodeCommand.simple ⟨.G0, [("Z", .num ((-((7:ℚ) + 0 / 10 ^ 0) : ℚ) : ℝ))], ""⟩) = .ok
      ({ positionMode := MoveMode.absolute,
              extrusionMode := MoveMode.relative,
              logicalPosition := ⟨.inf, .inf, .num ((-((7:ℚ) + 0 / 10 ^ 0) : ℚ) : ℝ)⟩,
              extrusion := .num (0 + 0), feedRate := .num 0,
              didExtrudeOnLastMove := JNum.ltb (.num 0) (.num (0 + 0)),
              physicalOffset := Point.zero, physicalEOffset := .num 0 } : GcodeVm) from rfl]
    rw [exceptOkBind, processGo]
    rw [show isExtrusionStart
      ({ positionMode := MoveMode.absolute,
              extrusionMode := MoveMode.relative,
              logicalPosition := ⟨.inf, .inf, .num ((-((7:ℚ) + 0 / 10 ^ 0) : ℚ) : ℝ)⟩,
              extrusion := .num (0 + 0), feedRate := .num 0,
              didExtrudeOnLastMove := JNum.ltb (.num 0) (.num (0 + 0)),
              physicalOffset := Point.zero, physicalEOffset := .num 0 } : GcodeVm) (GcodeCommand.simple ⟨.G28, [], ""⟩) =
      .ok (JNum.ltb (.num (0 + 0)) (.num (0 + 0))) from rfl]
    rw [exceptOkBind]
    rw [show JNum.ltb (.num (0 + 0)) (.num (0 + 0)) = false by
      rw [JNum.ltb_num]; norm_num]
    simp only [Bool.false_eq_true, if_false]
    rw [show GcodeVm.executeCommand
      ({ positionMode := MoveMode.absolute,
              extrusionMode := MoveMode.relative,
              logicalPosition := ⟨.inf, .inf, .num ((-((7:ℚ) + 0 / 10 ^ 0) : ℚ) : ℝ)⟩,
              extrusion := .num (0 + 0), feedRate := .num 0,
              didExtrudeOnLastMove := JNum.ltb (.num 0) (.num (0 + 0)),
              physicalOffset := Point.zero, physicalEOffset := .num 0 } : GcodeVm) (GcodeCommand.simple ⟨.G28, [], ""⟩) = .ok
      ({ positionMode := MoveMode.absolute,
              extrusionMode := MoveMode.relative,
              logicalPosition := Point.zero,
              extrusion := .num (0 + 0), feedRate := .num 0,
              didExtrudeOnLastMove := JNum.ltb (.num 0) (.num (0 + 0)),
              physicalOffset := Point.zero, physicalEOffset := .num 0 } : GcodeVm) from rfl]
    rw [exceptOkBind, processGo, exceptOkBind]
    rw [show stringifyCommand (GcodeCommand.simple ⟨.G0, [("Z", .num ((-((7:ℚ) + 0 / 10 ^ 0) : ℚ) : ℝ))], ""⟩) =
      "G0" ++ " " ++ String.intercalate (" ")
        [("Z" : String) ++ jsToFixed (.num ((-((7:ℚ) + 0 / 10 ^ 0) : ℚ) : ℝ)) 3] ++ "" from rfl]
    rw [jsToFixed_neg7]
    rfl
  · rw [show findMinimumSafeZ (jsCharSplit ('\n') ("G0 Z-7\nG28")) =
      .ok (.num (min 0 (0+0))) from rfl]
    norm_num

/-- `process` hands exactly the floor computed by `findMinimumSafeZ` to the
transform loop. -/
theorem floor_tying : ∀ (P : ProcessorParameters) (f : JNum),
    findMinimumSafeZ (jsCharSplit ('\n') P.gcode) = .ok f →
    process P = (processGo P f GcodeVm.init
      ((jsCharSplit ('\n') P.gcode).map parseCommand)) >>=
      (fun out => .ok (String.intercalate ("\n") out)) := by
  intro P f h
  rw [process, h, exceptOkBind]

/-- Every overlapped sequence opens, after the loop marker, with the output
of `makeStartingTaper` invoked at the same `minSafeZ` the sequence was built
with. -/
theorem overlapped_structure : ∀ (P : ProcessorParameters) (m : JNum)
    (vm : GcodeVm) (seq : List GcodeCommand) (ov : JNum)
    (out : List GcodeCommand),
    createOverlappedSequence P m vm seq ov = .ok out →
    ∃ st nt et dts, out = [.comment ("Beginning of tapered loop")] ++ st ++
        nt ++ et ++ [.comment ("End of tapered loop")] ∧
      makeStartingTaper P.layerHeight m vm dts ov = .ok st := by
  intro P m vm seq ov out h
  rw [createOverlappedSequence] at h
  cases hsp : splitTaperSection vm seq ov with
  | error e => simp only [hsp, exceptErrorBind] at h; cases h
  | ok sections =>
      simp only [hsp, exceptOkBind] at h
      cases hdiv : divideSequence vm sections.1 P.taperResolution with
      | error e => simp only [hdiv, exceptErrorBind] at h; cases h
      | ok dts =>
          simp only [hdiv, exceptOkBind] at h
          cases hst : makeStartingTaper P.layerHeight m vm dts ov with
          | error e => simp only [hst, exceptErrorBind] at h; cases h
          | ok st =>
              simp only [hst, exceptOkBind] at h
              cases hex : execAll vm (st ++ sections.2) with
              | error e => simp only [hex, exceptErrorBind] at h; cases h
              | ok vm2 =>
                  simp only [hex, exceptOkBind] at h
                  cases het : makeEndingTaper vm2 dts ov with
                  | error e => simp only [het, exceptErrorBind] at h; cases h
                  | ok et =>
                      simp only [het, exceptOkBind] at h
                      cases h
                      exact ⟨st, sections.2, et, dts, rfl, hst⟩

/-- C1: the Z values the transform synthesizes are clamped to the computed
safety floor.  `process` passes the floor computed by `findMinimumSafeZ`
down unchanged; every overlapped sequence opens with a `makeStartingTaper`
output built at that same floor; and each starting-taper sample's vertical
coordinate, lowered by `(1 − t) × layer height`, is clamped so its physical
height (Z argument plus the constant physical offset of an offset-change-free
section) never goes below the floor. -/
theorem z_floor_starting_taper_semantics :
    (∀ (P : ProcessorParameters) (f : JNum),
      findMinimumSafeZ (jsCharSplit ('\n') P.gcode) = .ok f →
      process P = (processGo P f GcodeVm.init
        ((jsCharSplit ('\n') P.gcode).map parseCommand)) >>=
        (fun out => .ok (String.intercalate ("\n") out))) ∧
    (∀ (P : ProcessorParameters) (m : JNum) (vm : GcodeVm)
      (seq : List GcodeCommand) (ov : JNum) (out : List GcodeCommand),
      createOverlappedSequence P m vm seq ov = .ok out →
      ∃ st nt et dts, out = [.comment ("Beginning of tapered loop")] ++ st ++
          nt ++ et ++ [.comment ("End of tapered loop")] ∧
        makeStartingTaper P.layerHeight m vm dts ov = .ok st) ∧
    (∀ (layerHeight ov : JNum) (f oz : ℝ) (vm : GcodeVm)
      (ts out : List GcodeCommand),
      (∀ c ∈ ts, changesOffset c = false) →
      vm.physicalOffset.z = .num oz →
      makeStartingTaper layerHeight (.num f) vm ts ov = .ok out →
      ∀ sc : SimpleCommand, GcodeCommand.simple sc ∈ out →
        isMoveCommand (.simple sc) = true →
        ∀ zv : ℝ, sc.args.get? ("Z") = some (.num zv) → f ≤ zv + oz) :=
  ⟨floor_tying, overlapped_structure,
   fun layerHeight ov f oz vm ts out h1 h2 h3 =>
     startingTaper_z_clamped_to_floor layerHeight ov f oz vm ts out h1 h2 h3⟩

/-- Witness for C1: a homed machine tapering a single 2 mm move with layer
height 1, overlap 2 and floor 0 emits the move with Z argument 0, whose
physical height meets the floor. -/
theorem z_floor_starting_taper_semantics_witness :
    makeStartingTaper (.num 1) (.num 0)
      { GcodeVm.init with logicalPosition := Point.zero }
      [.simple ⟨.G1, [("X", .num 2), ("E", .num 1)], ""⟩] (.num 2) =
      .ok [.simple ⟨.G1, [("X", .num 2), ("E", .num 1), ("Z", .num 0)], ""⟩] ∧
    (0 : ℝ) ≤ 0 + 0 := by
  have hok := startingTaper_z_clamped_witness.1
  refine ⟨hok, ?_⟩
  exact z_floor_starting_taper_semantics.2.2 (.num 1) (.num 2) 0 0
    { GcodeVm.init with logicalPosition := Point.zero }
    [.simple ⟨.G1, [("X", .num 2), ("E", .num 1)], ""⟩]
    [.simple ⟨.G1, [("X", .num 2), ("E", .num 1), ("Z", .num 0)], ""⟩]
    (by
      intro c hc
      rw [List.mem_singleton.mp hc]
      rfl)
    rfl hok
    ⟨.G1, [("X", .num 2), ("E", .num 1), ("Z", .num 0)], ""⟩
    (List.mem_singleton.mpr rfl) rfl 0 rfl

end Scarf
